import Mathlib

/-!
Verification of the 3DS emulator core against its design specification.

This file gives a shallow embedding, in Lean 4, of the parts of the
emulator that the specification claims speak about: the segmented
physical memory bus, the MMU, the CPU exception-entry path and the
operand-2 shifter, the cycle scheduler, the IPC message codec, the
kernel IPC pump, and the audio/video timing model.  Machine integers
are modelled as natural numbers, with explicit reductions modulo 2^32
or 2^64 at the points where the source's fixed-width arithmetic can
wrap, saturate or truncate.  Fallible operations return Except values,
and stateful operations thread the state explicitly.

Rust HashMap fields are modelled as association lists whose list order
stands for the map's (unspecified) iteration order; insertion replaces
an existing binding.  Vec fields are lists, and Vec bytes become
offset-indexed functions together with an explicit length.
-/

namespace ThreeDs

/-- Memory access kinds distinguished by the MMU (error.rs,
MemoryAccessKind). -/
inductive MemoryAccessKind where
  | read
  | write
  | execute
deriving DecidableEq, Repr

/-- The subset of EmulatorError (error.rs) raised by the memory bus and
the MMU. -/
inductive EmulatorError where
  | memoryOutOfBounds (address : Nat)
  | mmuTranslationFault (pc va : Nat) (pa : Option Nat) (access : MemoryAccessKind)
  | mmuDomainFault (pc va : Nat) (pa : Option Nat) (domain : Nat) (access : MemoryAccessKind)
  | mmuPermissionFault (pc va : Nat) (pa : Option Nat) (access : MemoryAccessKind)
deriving DecidableEq, Repr

/-! ## Memory bus (memory.rs) -/

def FCRAM_START : Nat := 0x00000000
def FCRAM_SIZE : Nat := 128 * 1024 * 1024
def VRAM_START : Nat := 0x1F000000
def VRAM_SIZE : Nat := 1024 * 1024
def IO_START : Nat := 0x10100000
def IO_SIZE : Nat := 1024 * 1024
def BIOS_START : Nat := 0x1FFF0000
def BIOS_SIZE : Nat := 64 * 1024
def ROM_START : Nat := 0x08000000

inductive SegmentKind where
  | fcram
  | vram
  | io
  | bios
  | rom
deriving DecidableEq, Repr

/-- A mapped segment (memory.rs, struct Segment).  The backing Vec of
bytes becomes an offset-indexed function plus its length. -/
structure Segment where
  kind : SegmentKind
  start : Nat
  endExclusive : Nat
  writable : Bool
  dataLen : Nat
  data : Nat → Nat

def Segment.contains (s : Segment) (addr : Nat) : Bool :=
  decide (s.start ≤ addr) && decide (addr < s.endExclusive)

def Segment.offsetOf (s : Segment) (addr : Nat) : Nat :=
  addr - s.start

structure Memory where
  segments : List Segment

/-- map_fixed_segment: push the new segment, then re-sort the segment
list by start address (slice sort_by_key is stable, hence the
insertion sort). -/
def Memory.mapFixedSegment (m : Memory) (kind : SegmentKind) (start size : Nat)
    (writable : Bool) : Memory :=
  let endExclusive := min (start + size) (2 ^ 32 - 1)
  let seg : Segment :=
    { kind := kind, start := start, endExclusive := endExclusive,
      writable := writable, dataLen := size, data := fun _ => 0 }
  { segments := (m.segments ++ [seg]).insertionSort (fun a b => a.start ≤ b.start) }

def Memory.new : Memory :=
  (((({ segments := [] } : Memory).mapFixedSegment .fcram FCRAM_START FCRAM_SIZE true
    ).mapFixedSegment .vram VRAM_START VRAM_SIZE true
    ).mapFixedSegment .io IO_START IO_SIZE true
    ).mapFixedSegment .bios BIOS_START BIOS_SIZE false

def Memory.findSegmentIndex (m : Memory) (addr : Nat) : Option Nat :=
  m.segments.findIdx? (fun segment => segment.contains addr)

def Memory.readU8Checked (m : Memory) (addr : Nat) : Except EmulatorError Nat :=
  match m.findSegmentIndex addr with
  | none => .error (.memoryOutOfBounds addr)
  | some idx =>
    match m.segments[idx]? with
    | none => .error (.memoryOutOfBounds addr)
    | some segment =>
      let offset := segment.offsetOf addr
      if offset < segment.dataLen then .ok (segment.data offset)
      else .error (.memoryOutOfBounds addr)

def Memory.writeU8Checked (m : Memory) (addr value : Nat) :
    Except EmulatorError Unit × Memory :=
  match m.findSegmentIndex addr with
  | none => (.error (.memoryOutOfBounds addr), m)
  | some idx =>
    match m.segments[idx]? with
    | none => (.error (.memoryOutOfBounds addr), m)
    | some segment =>
      if segment.writable = false then (.ok (), m)
      else
        let offset := segment.offsetOf addr
        if offset < segment.dataLen then
          let updated :=
            { segment with data := fun i => if i = offset then value else segment.data i }
          (.ok (), { segments := m.segments.set idx updated })
        else (.error (.memoryOutOfBounds addr), m)

def Memory.readU8 (m : Memory) (addr : Nat) : Nat :=
  match m.readU8Checked addr with
  | .ok v => v
  | .error _ => 0

/-- read_u32_checked: four byte reads at addr, addr+1, addr+2, addr+3
with u32 wrap-around, assembled little-endian. -/
def Memory.readU32Checked (m : Memory) (addr : Nat) : Except EmulatorError Nat :=
  match m.readU8Checked addr with
  | .error e => .error e
  | .ok b0 =>
    match m.readU8Checked ((addr + 1) % 2 ^ 32) with
    | .error e => .error e
    | .ok b1 =>
      match m.readU8Checked ((addr + 2) % 2 ^ 32) with
      | .error e => .error e
      | .ok b2 =>
        match m.readU8Checked ((addr + 3) % 2 ^ 32) with
        | .error e => .error e
        | .ok b3 => .ok (b0 + b1 * 2 ^ 8 + b2 * 2 ^ 16 + b3 * 2 ^ 24)

/-- write_u32_checked: four byte writes in little-endian order; the
first failing write aborts with its error, keeping the bytes already
written (the source propagates each error immediately). -/
def Memory.writeU32Checked (m : Memory) (addr value : Nat) :
    Except EmulatorError Unit × Memory :=
  match m.writeU8Checked addr (value % 2 ^ 8) with
  | (.error e, m1) => (.error e, m1)
  | (.ok _, m1) =>
    match m1.writeU8Checked ((addr + 1) % 2 ^ 32) (value / 2 ^ 8 % 2 ^ 8) with
    | (.error e, m2) => (.error e, m2)
    | (.ok _, m2) =>
      match m2.writeU8Checked ((addr + 2) % 2 ^ 32) (value / 2 ^ 16 % 2 ^ 8) with
      | (.error e, m3) => (.error e, m3)
      | (.ok _, m3) =>
        match m3.writeU8Checked ((addr + 3) % 2 ^ 32) (value / 2 ^ 24 % 2 ^ 8) with
        | (.error e, m4) => (.error e, m4)
        | (.ok _, m4) => (.ok (), m4)

/-! ## MMU (mmu.rs) -/

def SECTION_DESCRIPTOR_MASK : Nat := 0b11
def SECTION_DESCRIPTOR_VALUE : Nat := 0b10
def SECTION_BASE_MASK : Nat := 0xFFF00000
def SECTION_VA_MASK : Nat := 0xFFF00000
def SECTION_OFFSET_MASK : Nat := 0x000FFFFF

structure TlbEntry where
  paSection : Nat
  domain : Nat
  ap : Nat
  apx : Bool
  executeNever : Bool
deriving DecidableEq, Repr

/-- The TLB HashMap as an association list; insert replaces the binding
for an existing key. -/
def tlbInsert (tlb : List (Nat × TlbEntry)) (key : Nat) (entry : TlbEntry) :
    List (Nat × TlbEntry) :=
  (key, entry) :: tlb.filter (fun kv => kv.1 ≠ key)

def tlbGet (tlb : List (Nat × TlbEntry)) (key : Nat) : Option TlbEntry :=
  (tlb.find? (fun kv => kv.1 = key)).map (·.2)

structure Mmu where
  control : Nat
  ttbr0 : Nat
  dacr : Nat
  icacheEnabled : Bool
  dcacheEnabled : Bool
  tlb : List (Nat × TlbEntry)
deriving DecidableEq, Repr

def Mmu.new : Mmu :=
  { control := 0, ttbr0 := 0, dacr := 0,
    icacheEnabled := false, dcacheEnabled := false, tlb := [] }

def Mmu.invalidateTlb (m : Mmu) : Mmu :=
  { m with tlb := [] }

def Mmu.mmuEnabled (m : Mmu) : Bool :=
  (m.control &&& 1) ≠ 0

/-- write_control: the TLB is invalidated only when the MMU-enable,
I-cache or D-cache bit changes. -/
def Mmu.writeControl (m : Mmu) (value : Nat) : Mmu :=
  let oldEnabled := m.mmuEnabled
  let oldIcache := m.icacheEnabled
  let oldDcache := m.dcacheEnabled
  let m1 := { m with
    control := value,
    icacheEnabled := (value &&& (1 <<< 12)) ≠ 0,
    dcacheEnabled := (value &&& (1 <<< 2)) ≠ 0 }
  if oldEnabled ≠ m1.mmuEnabled ∨ oldIcache ≠ m1.icacheEnabled ∨
      oldDcache ≠ m1.dcacheEnabled then
    m1.invalidateTlb
  else
    m1

def Mmu.writeTtbr0 (m : Mmu) (value : Nat) : Mmu :=
  ({ m with ttbr0 := value &&& 0xFFFFC000 }).invalidateTlb

def Mmu.writeDacr (m : Mmu) (value : Nat) : Mmu :=
  ({ m with dacr := value }).invalidateTlb

/-- check_domain_and_permissions.  DACR modes 0b00 and 0b10 fault,
0b11 (manager) passes unconditionally, 0b01 (client) enforces
XN and AP/APX. -/
def Mmu.checkDomainAndPermissions (m : Mmu) (va : Nat) (entry : TlbEntry)
    (access : MemoryAccessKind) (privileged : Bool) : Except EmulatorError Unit :=
  let domainMode := (m.dacr >>> (entry.domain * 2)) &&& 0b11
  if domainMode = 0b00 ∨ domainMode = 0b10 then
    .error (.mmuDomainFault 0 va none entry.domain access)
  else if domainMode = 0b11 then
    .ok ()
  else
    if entry.executeNever ∧ access = .execute then
      .error (.mmuPermissionFault 0 va none access)
    else
      let allowed :=
        if entry.ap = 0b00 then false
        else if entry.ap = 0b01 then privileged
        else if entry.ap = 0b10 then
          privileged || (access = .read ∨ access = .execute)
        else if entry.ap = 0b11 then
          if entry.apx then ¬(access = .write) else true
        else false
      if allowed = false then
        .error (.mmuPermissionFault 0 va none access)
      else
        .ok ()

/-- translate.  The bus is abstracted to the one capability translate
uses: a checked 32-bit word read, modelled as a partial map from
address to value (none standing for MemoryOutOfBounds).  The returned
pair is (result, updated MMU), since a table walk inserts the parsed
entry into the TLB. -/
def Mmu.translate (m : Mmu) (memory : Nat → Option Nat) (va : Nat)
    (access : MemoryAccessKind) (privileged : Bool) :
    Except EmulatorError Nat × Mmu :=
  if m.mmuEnabled = false then
    (.ok va, m)
  else
    let sectionKey := va &&& SECTION_VA_MASK
    let entryAcq : Except EmulatorError (TlbEntry × Mmu) :=
      match tlbGet m.tlb sectionKey with
      | some entry => .ok (entry, m)
      | none =>
        let tableIndex := ((va >>> 20) * 4) % 2 ^ 32
        let descAddr := (m.ttbr0 + tableIndex) % 2 ^ 32
        match memory descAddr with
        | none => .error (.memoryOutOfBounds descAddr)
        | some descriptor =>
          if descriptor &&& SECTION_DESCRIPTOR_MASK ≠ SECTION_DESCRIPTOR_VALUE then
            .error (.mmuTranslationFault 0 va none access)
          else
            let entry : TlbEntry :=
              { paSection := descriptor &&& SECTION_BASE_MASK,
                domain := (descriptor >>> 5) &&& 0xF,
                ap := (descriptor >>> 10) &&& 0x3,
                apx := (descriptor >>> 15) &&& 1 ≠ 0,
                executeNever := (descriptor >>> 4) &&& 1 ≠ 0 }
            .ok (entry, { m with tlb := tlbInsert m.tlb sectionKey entry })
    match entryAcq with
    | .error e => (.error e, m)
    | .ok (entry, m1) =>
      match m1.checkDomainAndPermissions va entry access privileged with
      | .error e => (.error e, m1)
      | .ok _ => (.ok (entry.paSection ||| (va &&& SECTION_OFFSET_MASK)), m1)

/-! ## CPU exception entry and operand-2 shifter (cpu.rs) -/

def PC_INDEX : Nat := 15
def LR_INDEX : Nat := 14
def SP_INDEX : Nat := 13

def FLAG_N : Nat := 1 <<< 31
def FLAG_Z : Nat := 1 <<< 30
def FLAG_C : Nat := 1 <<< 29
def FLAG_V : Nat := 1 <<< 28
def FLAG_I : Nat := 1 <<< 7
def FLAG_T : Nat := 1 <<< 5

def MODE_MASK : Nat := 0x1F
def MODE_USR : Nat := 0b10000
def MODE_IRQ : Nat := 0b10010
def MODE_SVC : Nat := 0b10011
def MODE_ABT : Nat := 0b10111
def MODE_UND : Nat := 0b11011

def VECTOR_BASE : Nat := 0x00100000
def VECTOR_UND : Nat := VECTOR_BASE + 0x4
def VECTOR_SWI : Nat := VECTOR_BASE + 0x8
def VECTOR_PABT : Nat := VECTOR_BASE + 0xC
def VECTOR_DABT : Nat := VECTOR_BASE + 0x10
def VECTOR_IRQ : Nat := VECTOR_BASE + 0x18

inductive FaultKind where
  | translation
  | domain
  | permission
  | alignment
deriving DecidableEq, Repr

/-- ExceptionKind (cpu.rs); the IRQ line payload is modelled by its
numeric line id. -/
inductive ExceptionKind where
  | undefinedInstruction
  | softwareInterrupt
  | prefetchAbort (fault : FaultKind)
  | dataAbort (fault : FaultKind)
  | interrupt (line : Nat)
deriving DecidableEq, Repr

structure CpuException where
  kind : ExceptionKind
  vector : Nat
  returnAddress : Nat
  faultOpcode : Nat
deriving DecidableEq, Repr

/-- The subset of Arm11Cpu state read or written by switch_mode,
take_exception and shift_value. -/
structure Arm11Cpu where
  regs : List Nat
  cpsr : Nat
  spsr_und : Nat
  spsr_svc : Nat
  spsr_irq : Nat
  spsr_abt : Nat
  bankUsrSp : Nat
  bankUsrLr : Nat
  bankSvcSp : Nat
  bankSvcLr : Nat
  bankIrqSp : Nat
  bankIrqLr : Nat
  bankUndSp : Nat
  bankUndLr : Nat
  bankAbtSp : Nat
  bankAbtLr : Nat
  lastException : Option CpuException
deriving DecidableEq, Repr

def Arm11Cpu.new : Arm11Cpu :=
  { regs := List.replicate 16 0, cpsr := MODE_USR,
    spsr_und := MODE_USR, spsr_svc := MODE_USR,
    spsr_irq := MODE_USR, spsr_abt := MODE_USR,
    bankUsrSp := 0, bankUsrLr := 0, bankSvcSp := 0, bankSvcLr := 0,
    bankIrqSp := 0, bankIrqLr := 0, bankUndSp := 0, bankUndLr := 0,
    bankAbtSp := 0, bankAbtLr := 0, lastException := none }

def Arm11Cpu.mode (c : Arm11Cpu) : Nat :=
  c.cpsr &&& MODE_MASK

def Arm11Cpu.currentSpsr (c : Arm11Cpu) : Option Nat :=
  if c.mode = MODE_UND then some c.spsr_und
  else if c.mode = MODE_SVC then some c.spsr_svc
  else if c.mode = MODE_IRQ then some c.spsr_irq
  else if c.mode = MODE_ABT then some c.spsr_abt
  else none

def Arm11Cpu.setCurrentSpsr (c : Arm11Cpu) (value : Nat) : Arm11Cpu :=
  if c.mode = MODE_UND then { c with spsr_und := value }
  else if c.mode = MODE_SVC then { c with spsr_svc := value }
  else if c.mode = MODE_IRQ then { c with spsr_irq := value }
  else if c.mode = MODE_ABT then { c with spsr_abt := value }
  else c

/-- banked_sp_lr_mut read out for the given mode (default arm: user
bank). -/
def Arm11Cpu.bankedSpLr (c : Arm11Cpu) (mode : Nat) : Nat × Nat :=
  if mode = MODE_USR then (c.bankUsrSp, c.bankUsrLr)
  else if mode = MODE_SVC then (c.bankSvcSp, c.bankSvcLr)
  else if mode = MODE_IRQ then (c.bankIrqSp, c.bankIrqLr)
  else if mode = MODE_UND then (c.bankUndSp, c.bankUndLr)
  else if mode = MODE_ABT then (c.bankAbtSp, c.bankAbtLr)
  else (c.bankUsrSp, c.bankUsrLr)

/-- banked_sp_lr_mut written for the given mode (default arm: user
bank). -/
def Arm11Cpu.setBankedSpLr (c : Arm11Cpu) (mode sp lr : Nat) : Arm11Cpu :=
  if mode = MODE_USR then { c with bankUsrSp := sp, bankUsrLr := lr }
  else if mode = MODE_SVC then { c with bankSvcSp := sp, bankSvcLr := lr }
  else if mode = MODE_IRQ then { c with bankIrqSp := sp, bankIrqLr := lr }
  else if mode = MODE_UND then { c with bankUndSp := sp, bankUndLr := lr }
  else if mode = MODE_ABT then { c with bankAbtSp := sp, bankAbtLr := lr }
  else { c with bankUsrSp := sp, bankUsrLr := lr }

def Arm11Cpu.switchMode (c : Arm11Cpu) (newMode : Nat) : Arm11Cpu :=
  let oldMode := c.mode
  if oldMode = newMode then c
  else
    let oldSp := c.regs.getD SP_INDEX 0
    let oldLr := c.regs.getD LR_INDEX 0
    let c1 := c.setBankedSpLr oldMode oldSp oldLr
    let (newSp, newLr) := c1.bankedSpLr newMode
    { c1 with
      regs := (c1.regs.set SP_INDEX newSp).set LR_INDEX newLr,
      cpsr := (c1.cpsr &&& (0xFFFFFFFF ^^^ MODE_MASK)) ||| newMode }

/-- take_exception.  Note the source order: the old CPSR is written to
the SPSR selected by the mode the CPU is still in, and only then is
the mode switched. -/
def Arm11Cpu.takeException (c : Arm11Cpu) (kind : ExceptionKind)
    (pc faultOpcode : Nat) (lrPlus4 : Bool) : Arm11Cpu :=
  let vm : Nat × Nat :=
    match kind with
    | .undefinedInstruction => (VECTOR_UND, MODE_UND)
    | .softwareInterrupt => (VECTOR_SWI, MODE_SVC)
    | .prefetchAbort _ => (VECTOR_PABT, MODE_ABT)
    | .dataAbort _ => (VECTOR_DABT, MODE_ABT)
    | .interrupt _ => (VECTOR_IRQ, MODE_IRQ)
  let vector := vm.1
  let mode := vm.2
  let returnAddr :=
    match kind with
    | .prefetchAbort _ => (pc + 4) % 2 ^ 32
    | .dataAbort _ => (pc + 8) % 2 ^ 32
    | _ => if lrPlus4 then (pc + 4) % 2 ^ 32 else pc
  let c1 := c.setCurrentSpsr c.cpsr
  let c2 := c1.switchMode mode
  let c3 := { c2 with regs := (c2.regs.set LR_INDEX returnAddr).set PC_INDEX vector }
  let c4 := { c3 with cpsr := (c3.cpsr ||| FLAG_I) &&& (0xFFFFFFFF ^^^ FLAG_T) }
  let exc : CpuException :=
    { kind := kind, vector := vector, returnAddress := returnAddr,
      faultOpcode := faultOpcode }
  { c4 with lastException := some exc }

/-- u32::rotate_right. -/
def rotateRight32 (value n : Nat) : Nat :=
  (value >>> (n % 32)) ||| ((value <<< ((32 - n % 32) % 32)) % 2 ^ 32)

/-- shift_value: the operand-2 shifter.  Returns (result, carry-out).
The i32 arithmetic shift of the 0b10 arm is expressed over Nat for a
32-bit value: the vacated high bits are filled with the sign. -/
def Arm11Cpu.shiftValue (c : Arm11Cpu) (value shiftImm shiftType : Nat) :
    Nat × Bool :=
  if shiftType = 0b00 then
    if shiftImm = 0 then
      (value, c.cpsr &&& FLAG_C ≠ 0)
    else
      ((value <<< shiftImm) % 2 ^ 32, (value >>> (32 - shiftImm)) &&& 1 = 1)
  else if shiftType = 0b01 then
    let shift := if shiftImm = 0 then 32 else shiftImm
    if shift ≥ 32 then
      (0, (value >>> 31) &&& 1 = 1)
    else
      (value >>> shift, (value >>> (shift - 1)) &&& 1 = 1)
  else if shiftType = 0b10 then
    let shift := if shiftImm = 0 then 32 else shiftImm
    let sign := value &&& FLAG_N ≠ 0
    let res :=
      if shift ≥ 32 then
        if sign then 2 ^ 32 - 1 else 0
      else
        if sign then (value >>> shift) ||| ((2 ^ 32 - 2 ^ (32 - shift)) % 2 ^ 32)
        else value >>> shift
    (res, (value >>> (min (shift - 1) 31)) &&& 1 = 1)
  else if shiftType = 0b11 then
    let shift := if shiftImm = 0 then 1 else shiftImm
    let res := rotateRight32 value shift
    (res, res &&& FLAG_N ≠ 0)
  else
    (value, c.cpsr &&& FLAG_C ≠ 0)

/-! ## Scheduler (scheduler.rs) -/

/-- Scheduled device events.  The TimerExpiry, VBlank and DmaCompletion
variants are declared in scheduler.rs.  Modelled from the spec: the
ServiceWake variant (service wake, carrying the process-id), which the
orchestrator constructs and dispatches (emulator.rs) but whose
declaration is absent from the scheduler source shown. -/
inductive ScheduledDeviceEvent where
  | timerExpiry
  | vblank
  | dmaCompletion (channel : Nat)
  | serviceWake (pid : Nat)
deriving DecidableEq, Repr

/-- Device-event priority for simultaneous fire-at.  The first three
arms are from scheduler.rs.  Modelled from the spec: the service-wake
priority 3 (timer < v-blank < DMA < wake). -/
def ScheduledDeviceEvent.priority : ScheduledDeviceEvent → Nat
  | .timerExpiry => 0
  | .vblank => 1
  | .dmaCompletion _ => 2
  | .serviceWake _ => 3

structure ScheduledEvent where
  atCycle : Nat
  order : Nat
  event : ScheduledDeviceEvent
deriving DecidableEq, Repr

structure Scheduler where
  cycles : Nat
  nextOrder : Nat
  pending : List ScheduledEvent
deriving DecidableEq, Repr

def Scheduler.new : Scheduler :=
  { cycles := 0, nextOrder := 0, pending := [] }

def Scheduler.tick (s : Scheduler) (cycles : Nat) : Scheduler :=
  { s with cycles := min (s.cycles + cycles) (2 ^ 64 - 1) }

def Scheduler.scheduleAt (s : Scheduler) (atCycle : Nat)
    (event : ScheduledDeviceEvent) : Scheduler :=
  let entry : ScheduledEvent := { atCycle := atCycle, order := s.nextOrder, event := event }
  { s with nextOrder := min (s.nextOrder + 1) (2 ^ 64 - 1),
           pending := s.pending ++ [entry] }

def Scheduler.scheduleIn (s : Scheduler) (cyclesFromNow : Nat)
    (event : ScheduledDeviceEvent) : Scheduler :=
  s.scheduleAt (min (s.cycles + cyclesFromNow) (2 ^ 64 - 1)) event

/-- The drain loop of drain_due_events: walk the pending list in order,
pushing each entry onto the due or the remaining list. -/
def drainSplit (pending : List ScheduledEvent) (now : Nat) :
    List ScheduledEvent × List ScheduledEvent :=
  match pending with
  | [] => ([], [])
  | e :: rest =>
    let (due, remain) := drainSplit rest now
    if e.atCycle ≤ now then (e :: due, remain) else (due, e :: remain)

/-- The sort key (at_cycle, priority, order), as a lexicographic
order. -/
def eventKeyLe (a b : ScheduledEvent) : Prop :=
  a.atCycle < b.atCycle ∨
    (a.atCycle = b.atCycle ∧
      (a.event.priority < b.event.priority ∨
        (a.event.priority = b.event.priority ∧ a.order ≤ b.order)))

instance : DecidableRel eventKeyLe := fun a b => by
  unfold eventKeyLe
  infer_instance

instance : IsTotal ScheduledEvent eventKeyLe :=
  ⟨fun a b => by unfold eventKeyLe; omega⟩

instance : IsTrans ScheduledEvent eventKeyLe :=
  ⟨fun a b c hab hbc => by
    unfold eventKeyLe at hab hbc ⊢
    omega⟩

/-- drain_due_events: split off the due entries (fire-at at most the
current cycle), keep the rest pending, sort the due entries by
(fire-at, event-priority, insertion-order) with a stable sort, and
return their device events. -/
def Scheduler.drainDueEvents (s : Scheduler) :
    List ScheduledDeviceEvent × Scheduler :=
  let (due, remain) := drainSplit s.pending s.cycles
  let sorted := due.insertionSort eventKeyLe
  (sorted.map (fun entry => entry.event), { s with pending := remain })

/-! ## Timing model (timing.rs) -/

def CPU_HZ : Nat := 268000000
def AUDIO_HZ : Nat := 48000
def VIDEO_HZ : Nat := 60

def SCANLINES_TOTAL : Nat := 262
def SCANLINES_ACTIVE : Nat := 240
def BOTTOM_SCANLINE_OFFSET : Nat := 2

inductive Screen where
  | top
  | bottom
deriving DecidableEq, Repr

structure ScreenTimingSnapshot where
  scanline : Nat
  inVblank : Bool
  frameCount : Nat
  vblankCount : Nat
deriving DecidableEq, Repr

structure TimingTick where
  audioSamples : Nat
  videoFrames : Nat
  topVblankEdges : Nat
  bottomVblankEdges : Nat
deriving DecidableEq, Repr

structure TimingModel where
  cpuCycles : Nat
  audioSamplesDue : Nat
  videoFramesDue : Nat
  audioPhase : Nat
  videoPhase : Nat
  topVblankCount : Nat
  bottomVblankCount : Nat
deriving DecidableEq, Repr

def TimingModel.new : TimingModel :=
  { cpuCycles := 0, audioSamplesDue := 0, videoFramesDue := 0,
    audioPhase := 0, videoPhase := 0,
    topVblankCount := 0, bottomVblankCount := 0 }

/-- u64 saturating addition. -/
def satAdd64 (a b : Nat) : Nat :=
  min (a + b) (2 ^ 64 - 1)

/-- u64 saturating multiplication. -/
def satMul64 (a b : Nat) : Nat :=
  min (a * b) (2 ^ 64 - 1)

def TimingModel.screenSnapshotAt (t : TimingModel) (cpuCycles : Nat)
    (screen : Screen) (vblankCount : Nat) : ScreenTimingSnapshot :=
  let frameCycles := CPU_HZ / VIDEO_HZ
  let cycleInFrame := cpuCycles % frameCycles
  let lineCycles := max (frameCycles / SCANLINES_TOTAL) 1
  let cycleInFrame :=
    match screen with
    | .bottom => (cycleInFrame + satMul64 BOTTOM_SCANLINE_OFFSET lineCycles) % frameCycles
    | .top => cycleInFrame
  let scanline := cycleInFrame / lineCycles
  let inVblank := decide (scanline ≥ SCANLINES_ACTIVE)
  { scanline := scanline, inVblank := inVblank,
    frameCount := t.videoFramesDue, vblankCount := vblankCount }

/-- tick: advance the cycle counter, run the two phase accumulators
(phase += delta * rate; produced = phase / CPU_HZ; phase %= CPU_HZ),
and detect V-blank edges on both screens. -/
def TimingModel.tick (t : TimingModel) (cycles : Nat) : TimingTick × TimingModel :=
  let prevCycles := t.cpuCycles
  let prevTop := t.screenSnapshotAt prevCycles .top t.topVblankCount
  let prevBottom := t.screenSnapshotAt prevCycles .bottom t.bottomVblankCount
  let cpuCycles := satAdd64 t.cpuCycles cycles
  let audioAccum := satAdd64 t.audioPhase (satMul64 cycles AUDIO_HZ)
  let producedSamples := audioAccum / CPU_HZ
  let audioPhase := audioAccum % CPU_HZ
  let audioSamplesDue := satAdd64 t.audioSamplesDue producedSamples
  let videoAccum := satAdd64 t.videoPhase (satMul64 cycles VIDEO_HZ)
  let producedFrames := videoAccum / CPU_HZ
  let videoPhase := videoAccum % CPU_HZ
  let videoFramesDue := satAdd64 t.videoFramesDue producedFrames
  let t1 : TimingModel :=
    { t with cpuCycles := cpuCycles,
             audioPhase := audioPhase, audioSamplesDue := audioSamplesDue,
             videoPhase := videoPhase, videoFramesDue := videoFramesDue }
  let nextTop := t1.screenSnapshotAt cpuCycles .top t.topVblankCount
  let nextBottom := t1.screenSnapshotAt cpuCycles .bottom t.bottomVblankCount
  let topEdges := if prevTop.inVblank = false ∧ nextTop.inVblank then 1 else 0
  let bottomEdges := if prevBottom.inVblank = false ∧ nextBottom.inVblank then 1 else 0
  let t2 := { t1 with
    topVblankCount := satAdd64 t.topVblankCount topEdges,
    bottomVblankCount := satAdd64 t.bottomVblankCount bottomEdges }
  ({ audioSamples := producedSamples, videoFrames := producedFrames,
     topVblankEdges := topEdges, bottomVblankEdges := bottomEdges }, t2)

/-- Run a sequence of ticks from a starting state, accumulating the
audio sample counts returned by each tick. -/
def TimingModel.runTicks (t : TimingModel) (deltas : List Nat) : TimingModel × Nat :=
  match deltas with
  | [] => (t, 0)
  | d :: rest =>
    let (tickResult, t1) := t.tick d
    let (tEnd, produced) := t1.runTicks rest
    (tEnd, tickResult.audioSamples + produced)

/-! ## IPC message codec (ipc.rs) -/

def RESULT_OK : Nat := 0
def RESULT_NOT_FOUND : Nat := 0xD8A183F8
def RESULT_INVALID_HANDLE : Nat := 0xD8A183FA
def RESULT_INVALID_COMMAND : Nat := 0xD8A18404

/-- CommandHeader: command_id is u16, normal_words u16, translate_words
u8; the reductions mod 2^16 and 2^8 in encode stand for those types. -/
structure CommandHeader where
  commandId : Nat
  normalWords : Nat
  translateWords : Nat
deriving DecidableEq, Repr

def CommandHeader.parse (raw : Nat) : CommandHeader :=
  { commandId := raw &&& 0xFFFF,
    normalWords := (raw >>> 16) &&& 0x3FF,
    translateWords := (raw >>> 26) &&& 0x3F }

def CommandHeader.encode (h : CommandHeader) : Nat :=
  (h.commandId % 2 ^ 16) |||
    (((h.normalWords % 2 ^ 16) <<< 16) % 2 ^ 32) |||
    (((h.translateWords % 2 ^ 8) <<< 26) % 2 ^ 32)

structure CommandBuffer where
  header : CommandHeader
  words : List Nat
deriving DecidableEq, Repr

def CommandBuffer.parse (rawWords : List Nat) : Option CommandBuffer :=
  match rawWords with
  | [] => none
  | first :: tail =>
    let header := CommandHeader.parse first
    if tail.length < header.normalWords then none
    else some { header := header, words := tail.take header.normalWords }

inductive IpcDescriptor where
  | copyHandle (handle : Nat)
  | moveHandle (handle : Nat)
  | staticBuffer (index address size : Nat)
deriving DecidableEq, Repr

structure IpcMessage where
  commandId : Nat
  normalWords : List Nat
  descriptors : List IpcDescriptor
deriving DecidableEq, Repr

/-- The translate-word weight of one descriptor (a static buffer takes
two words, the handle descriptors one). -/
def IpcDescriptor.weight : IpcDescriptor → Nat
  | .staticBuffer _ _ _ => 2
  | _ => 1

def translateWeight (ds : List IpcDescriptor) : Nat :=
  (ds.map IpcDescriptor.weight).sum

/-- The translate-descriptor while loop of IpcMessage::parse, indexing
into the raw words at an absolute offset and counting consumed
translate words. -/
def parseDescriptors (raw : List Nat) (offset consumed translateWords : Nat) :
    Option (List IpcDescriptor) :=
  if _h : consumed < translateWords then
    match raw[offset]? with
    | none => none
    | some tag =>
      let kind := (tag >>> 28) &&& 0xF
      if kind = 0x8 then
        match parseDescriptors raw (offset + 1) (consumed + 1) translateWords with
        | none => none
        | some ds => some (.copyHandle (tag &&& 0x0FFFFFFF) :: ds)
      else if kind = 0x9 then
        match parseDescriptors raw (offset + 1) (consumed + 1) translateWords with
        | none => none
        | some ds => some (.moveHandle (tag &&& 0x0FFFFFFF) :: ds)
      else if kind = 0xA then
        match raw[offset + 1]? with
        | none => none
        | some address =>
          match parseDescriptors raw (offset + 2) (consumed + 2) translateWords with
          | none => none
          | some ds =>
            some (.staticBuffer ((tag >>> 24) &&& 0xF) address (tag &&& 0x00FFFFFF) :: ds)
      else none
  else some []
termination_by translateWords - consumed
decreasing_by
  all_goals omega

def IpcMessage.parse (rawWords : List Nat) : Option IpcMessage :=
  match CommandBuffer.parse rawWords with
  | none => none
  | some cmd =>
    let offset := 1 + cmd.header.normalWords
    match parseDescriptors rawWords offset 0 cmd.header.translateWords with
    | none => none
    | some descriptors =>
      some { commandId := cmd.header.commandId,
             normalWords := cmd.words,
             descriptors := descriptors }

def encodeDescriptor : IpcDescriptor → List Nat
  | .copyHandle handle => [0x80000000 ||| (handle &&& 0x0FFFFFFF)]
  | .moveHandle handle => [0x90000000 ||| (handle &&& 0x0FFFFFFF)]
  | .staticBuffer index address size =>
    [0xA0000000 ||| (((index &&& 0xF) <<< 24) % 2 ^ 32) ||| (size &&& 0x00FFFFFF),
     address]

def encodeDescriptors (ds : List IpcDescriptor) : List Nat :=
  (ds.map encodeDescriptor).flatten

/-- into_words: header word (normal count cast to u16, translate count
cast to u8), then the normal words, then the encoded descriptors. -/
def IpcMessage.intoWords (m : IpcMessage) : List Nat :=
  let translateWords := translateWeight m.descriptors
  CommandHeader.encode
      { commandId := m.commandId,
        normalWords := m.normalWords.length,
        translateWords := translateWords }
    :: m.normalWords ++ encodeDescriptors m.descriptors

/-- Validity of one translate descriptor: handle tokens below 2^28,
static-buffer index below 16, size below 2^24, address a u32. -/
def IpcDescriptor.valid : IpcDescriptor → Prop
  | .copyHandle handle => handle < 2 ^ 28
  | .moveHandle handle => handle < 2 ^ 28
  | .staticBuffer index address size =>
    index < 16 ∧ address < 2 ^ 32 ∧ size < 2 ^ 24

/-- Validity of an IPC message: command id a u16, at most 0x3FF normal
words, valid descriptors with total translate weight at most 0x3F. -/
def IpcMessage.valid (m : IpcMessage) : Prop :=
  m.commandId < 2 ^ 16 ∧
  m.normalWords.length ≤ 0x3FF ∧
  (∀ d ∈ m.descriptors, d.valid) ∧
  translateWeight m.descriptors ≤ 0x3F

/-! ## Virtual file system (fs.rs)

Rust String values are modelled as their UTF-8 byte lists.  The lossy
UTF-8 decoding used on service names maps each byte below 0x80 to
itself; other bytes are replaced by the UTF-8 encoding of the
replacement character (the multi-byte resynchronisation of
from_utf8_lossy on longer invalid sequences is outside the modelled
service-name alphabet). -/

def utf8Lossy (bytes : List Nat) : List Nat :=
  bytes.flatMap (fun b => if b < 0x80 then [b] else [0xEF, 0xBF, 0xBD])

inductive ArchiveId where
  | sdmc
  | save
  | romfs
  | extData
deriving DecidableEq, Repr

def ArchiveId.fromRaw (raw : Nat) : Option ArchiveId :=
  if raw = 0 then some .sdmc
  else if raw = 1 then some .save
  else if raw = 2 then some .romfs
  else if raw = 3 then some .extData
  else none

/-- Archive path prefixes as byte strings (sdmc, save, romfs,
extdata). -/
def ArchiveId.pathStart : ArchiveId → List Nat
  | .sdmc => [0x2F, 0x73, 0x64, 0x6D, 0x63]
  | .save => [0x2F, 0x73, 0x61, 0x76, 0x65]
  | .romfs => [0x2F, 0x72, 0x6F, 0x6D, 0x66, 0x73]
  | .extData => [0x2F, 0x65, 0x78, 0x74, 0x64, 0x61, 0x74, 0x61]

structure ArchiveHandle where
  archive : ArchiveId
deriving DecidableEq, Repr

structure FileHandle where
  archive : ArchiveId
  path : List Nat
deriving DecidableEq, Repr

structure RomFsFile where
  path : List Nat
  offset : Nat
  size : Nat
deriving DecidableEq, Repr

structure RomFs where
  bytes : List Nat
  files : List (List Nat × RomFsFile)
deriving DecidableEq, Repr

/-- normalize_path: backslashes become slashes, empty and dot segments
drop, dot-dot pops, and the result is re-joined with a leading
slash. -/
def normalizePath (path : List Nat) : List Nat :=
  let cleaned := path.map (fun b => if b = 0x5C then 0x2F else b)
  let segments := cleaned.splitOn 0x2F
  let out := segments.foldl
    (fun acc segment =>
      if segment.isEmpty ∨ segment = [0x2E] then acc
      else if segment = [0x2E, 0x2E] then acc.dropLast
      else acc ++ [segment])
    ([] : List (List Nat))
  0x2F :: List.intercalate [0x2F] out

def RomFs.lookup (r : RomFs) (path : List Nat) : Option RomFsFile :=
  (r.files.find? (fun kv => kv.1 = normalizePath path)).map (·.2)

def RomFs.readFile (r : RomFs) (path : List Nat) (offset size : Nat) :
    Option (List Nat) :=
  match r.lookup path with
  | none => none
  | some file =>
    if file.size ≤ offset then some []
    else
      let readLen := min size (file.size - offset)
      let start := file.offset + offset
      let stop := start + readLen
      if stop ≤ r.bytes.length then some ((r.bytes.drop start).take readLen)
      else none

structure VirtualFileSystem where
  romfs : Option RomFs
deriving DecidableEq, Repr

def VirtualFileSystem.openArchive (v : VirtualFileSystem) (rawId : Nat) :
    Option ArchiveHandle :=
  match ArchiveId.fromRaw rawId with
  | none => none
  | some archive =>
    if archive = .romfs ∧ v.romfs = none then none
    else some { archive := archive }

def VirtualFileSystem.translatePath (_v : VirtualFileSystem) (archive : ArchiveId)
    (path : List Nat) : List Nat :=
  archive.pathStart ++ [0x2F] ++ (normalizePath path).dropWhile (· = 0x2F)

def VirtualFileSystem.openFile (v : VirtualFileSystem) (archive : ArchiveHandle)
    (path : List Nat) : Option FileHandle :=
  let normalized := normalizePath path
  match archive.archive with
  | .romfs =>
    match v.romfs with
    | none => none
    | some r =>
      match r.lookup normalized with
      | some _ => some { archive := .romfs, path := normalized }
      | none => none
  | other => some { archive := other, path := normalized }

def VirtualFileSystem.readFile (v : VirtualFileSystem) (file : FileHandle)
    (offset size : Nat) : Option (List Nat) :=
  match file.archive with
  | .romfs =>
    match v.romfs with
    | none => none
    | some r => r.readFile file.path offset size
  | _ => some []

/-! ## Kernel (kernel.rs)

HashMap fields become association lists; the list order models the
map's iteration order, which for the process table is what the IPC
pump walks.  Insertion of a missing key appends; insertion of a
present key updates in place.

The send-sync-request blocked path, the kernel-side pending schedule
events and the blocked-on-IPC process flag are used by the
orchestrator (emulator.rs: take_pending_schedule_events,
on_scheduler_wake, ScheduledDeviceEvent::ServiceWake) but their
declarations are absent from the kernel source shown; those parts are
modelled from the spec and marked as such below. -/

def KERNEL_PROCESS_ID : Nat := 1

def alistGet {V : Type} (l : List (Nat × V)) (k : Nat) : Option V :=
  (l.find? (fun kv => kv.1 = k)).map (·.2)

def alistGetBytes {V : Type} (l : List (List Nat × V)) (k : List Nat) : Option V :=
  (l.find? (fun kv => kv.1 = k)).map (·.2)

def alistInsert {V : Type} (l : List (Nat × V)) (k : Nat) (v : V) :
    List (Nat × V) :=
  if l.any (fun kv => kv.1 = k) then
    l.map (fun kv => if kv.1 = k then (k, v) else kv)
  else l ++ [(k, v)]

def alistInsertBytes {V : Type} (l : List (List Nat × V)) (k : List Nat) (v : V) :
    List (List Nat × V) :=
  if l.any (fun kv => kv.1 = k) then
    l.map (fun kv => if kv.1 = k then (k, v) else kv)
  else l ++ [(k, v)]

def alistRemove {V : Type} (l : List (Nat × V)) (k : Nat) : List (Nat × V) :=
  l.filter (fun kv => kv.1 ≠ k)

inductive ServiceCall where
  | yield
  | getTick
  | sendSyncRequest
  | createEvent
  | duplicateHandle
  | closeHandle
  | unknown (imm24 : Nat)
deriving DecidableEq, Repr

structure ServiceEvent where
  call : ServiceCall
  argument : Nat
deriving DecidableEq, Repr

inductive ServiceTarget where
  | srv
  | fs
  | apt
  | gspGpu
  | hidUser
deriving DecidableEq, Repr

structure ServiceDefinition where
  target : ServiceTarget
  maxSessions : Nat
deriving DecidableEq, Repr

structure HidInputState where
  buttons : Nat
  touchX : Nat
  touchY : Nat
deriving DecidableEq, Repr

def HidInputState.default : HidInputState :=
  { buttons := 0, touchX := 0, touchY := 0 }

inductive KernelObject where
  | port (target : ServiceTarget)
  | session (target : ServiceTarget)
  | event (name : List Nat) (signaled : Bool)
  | archive (handle : ArchiveHandle)
  | file (handle : FileHandle)
deriving DecidableEq, Repr

structure IpcResponse where
  resultCode : Nat
  words : List Nat
deriving DecidableEq, Repr

structure IpcRequest where
  sessionHandle : Nat
  message : IpcMessage
deriving DecidableEq, Repr

/-- Per-process kernel state.  The blockedOnIpc flag is modelled from
the spec (each process entry carries a blocked-on-IPC flag); the other
fields are from kernel.rs. -/
structure ProcessState where
  handles : List (Nat × KernelObject)
  pendingRequests : List IpcRequest
  pendingResponses : List IpcResponse
  lastResultCode : Nat
  blockedOnIpc : Bool
deriving DecidableEq, Repr

def ProcessState.default : ProcessState :=
  { handles := [], pendingRequests := [], pendingResponses := [],
    lastResultCode := 0, blockedOnIpc := false }

/-- Modelled from the spec: a kernel-emitted scheduling request (the
service-wake event the orchestrator turns into a ServiceWake scheduler
entry at the given cycle delay). -/
structure KernelScheduleEvent where
  pid : Nat
  delayCycles : Nat
deriving DecidableEq, Repr

/-- Service names as byte strings. -/
def srvName : List Nat := [0x73, 0x72, 0x76, 0x3A]
def fsUserName : List Nat := [0x66, 0x73, 0x3A, 0x55, 0x53, 0x45, 0x52]
def aptUName : List Nat := [0x61, 0x70, 0x74, 0x3A, 0x75]
def gspGpuName : List Nat := [0x67, 0x73, 0x70, 0x3A, 0x3A, 0x47, 0x70, 0x75]
def hidUserName : List Nat := [0x68, 0x69, 0x64, 0x3A, 0x55, 0x53, 0x45, 0x52]
def svcEventName : List Nat := [0x73, 0x76, 0x63, 0x3A, 0x65, 0x76, 0x65, 0x6E, 0x74]

def registryBootstrap : List (List Nat × ServiceDefinition) :=
  [(srvName, { target := .srv, maxSessions := 16 }),
   (fsUserName, { target := .fs, maxSessions := 8 }),
   (aptUName, { target := .apt, maxSessions := 4 }),
   (gspGpuName, { target := .gspGpu, maxSessions := 4 }),
   (hidUserName, { target := .hidUser, maxSessions := 4 })]

structure Kernel where
  svcLog : List ServiceEvent
  ticks : Nat
  nextHandle : Nat
  processes : List (Nat × ProcessState)
  servicePorts : List (List Nat × (Nat × Nat))
  registry : List (List Nat × ServiceDefinition)
  appState : Nat
  gpuHandoff : List (List Nat)
  hidState : HidInputState
  vfs : VirtualFileSystem
  lastIpc : Option (Nat × Nat × Nat)
  lastServiceImm24 : Option Nat
  pendingScheduleEvents : List KernelScheduleEvent
deriving DecidableEq, Repr

def Kernel.ensureProcess (k : Kernel) (pid : Nat) : Kernel :=
  if k.processes.any (fun kv => kv.1 = pid) then k
  else { k with processes := k.processes ++ [(pid, ProcessState.default)] }

def Kernel.updateProcess (k : Kernel) (pid : Nat)
    (f : ProcessState → ProcessState) : Kernel :=
  { k with processes :=
      k.processes.map (fun kv => if kv.1 = pid then (kv.1, f kv.2) else kv) }

def Kernel.allocateHandle (k : Kernel) (pid : Nat) (object : KernelObject) :
    Nat × Kernel :=
  let handle := k.nextHandle
  let k1 := { k with nextHandle := min (k.nextHandle + 1) (2 ^ 32 - 1) }
  (handle, k1.updateProcess pid (fun st =>
    { st with handles := alistInsert st.handles handle object }))

def Kernel.lookupObject (k : Kernel) (pid handle : Nat) : Option KernelObject :=
  match alistGet k.processes pid with
  | none => none
  | some st => alistGet st.handles handle

def Kernel.registerServicePort (k : Kernel) (pid : Nat) (name : List Nat)
    (maxSessions : Nat) : Nat × Kernel :=
  let k1 := k.ensureProcess pid
  let target :=
    match alistGetBytes k1.registry name with
    | some def0 => def0.target
    | none => ServiceTarget.srv
  let _ := maxSessions
  let (handle, k2) := k1.allocateHandle pid (.port target)
  (handle, { k2 with servicePorts := alistInsertBytes k2.servicePorts name (pid, handle) })

def Kernel.connectToService (k : Kernel) (pid : Nat) (name : List Nat) :
    Option (Nat × Kernel) :=
  let k1 := k.ensureProcess pid
  match alistGetBytes k1.servicePorts name with
  | none => none
  | some (ownerPid, portHandle) =>
    match k1.lookupObject ownerPid portHandle with
    | some (.port target) => some (k1.allocateHandle pid (.session target))
    | _ => none

def Kernel.bootstrapServices (k : Kernel) (pid : Nat) : Kernel :=
  registryBootstrap.foldl
    (fun acc entry => (acc.registerServicePort pid entry.1 entry.2.maxSessions).2) k

def Kernel.new : Kernel :=
  let k0 : Kernel :=
    { svcLog := [], ticks := 0, nextHandle := 0x20, processes := [],
      servicePorts := [], registry := registryBootstrap, appState := 1,
      gpuHandoff := [], hidState := HidInputState.default,
      vfs := { romfs := none }, lastIpc := none, lastServiceImm24 := none,
      pendingScheduleEvents := [] }
  (k0.ensureProcess KERNEL_PROCESS_ID).bootstrapServices KERNEL_PROCESS_ID

def Kernel.tick (k : Kernel) (cycles : Nat) : Kernel :=
  { k with ticks := satAdd64 k.ticks cycles }

def Kernel.createEvent (k : Kernel) (pid : Nat) (name : List Nat) : Nat × Kernel :=
  k.allocateHandle pid (.event name false)

def Kernel.duplicateHandle (k : Kernel) (pid handle : Nat) : Option (Nat × Kernel) :=
  match k.lookupObject pid handle with
  | none => none
  | some obj => some (k.allocateHandle pid obj)

def Kernel.closeHandle (k : Kernel) (pid handle : Nat) : Bool × Kernel :=
  match alistGet k.processes pid with
  | none => (false, k)
  | some st =>
    let present := st.handles.any (fun kv => kv.1 = handle)
    (present, k.updateProcess pid (fun s =>
      { s with handles := alistRemove s.handles handle }))

/-- service_name_from_words: up to eight little-endian bytes from the
first two words, cut at the first NUL, decoded lossily. -/
def serviceNameFromWords (words : List Nat) : List Nat :=
  let w0 := words.getD 0 0
  let w1 := words.getD 1 0
  let bytes := [w0 % 2 ^ 8, w0 / 2 ^ 8 % 2 ^ 8, w0 / 2 ^ 16 % 2 ^ 8, w0 / 2 ^ 24 % 2 ^ 8,
                w1 % 2 ^ 8, w1 / 2 ^ 8 % 2 ^ 8, w1 / 2 ^ 16 % 2 ^ 8, w1 / 2 ^ 24 % 2 ^ 8]
  utf8Lossy (bytes.takeWhile (· ≠ 0))

/-- PicaCommandBufferPacket::encode (pica.rs): reg is u16, count u8,
sequential one bit at 23. -/
def picaPacketEncode (reg count : Nat) (sequential : Bool) : Nat :=
  (reg % 2 ^ 16) ||| ((count % 2 ^ 8) <<< 16) |||
    ((if sequential then 1 else 0) <<< 23)

/-- One lowercase hex digit. -/
def hexDigitByte (n : Nat) : Nat :=
  if n < 10 then 0x30 + n else 0x57 + (n - 10)

/-- The byte string of format "/{:08x}" applied to a u32. -/
def slashHex8 (w : Nat) : List Nat :=
  [0x2F,
   hexDigitByte ((w >>> 28) &&& 0xF), hexDigitByte ((w >>> 24) &&& 0xF),
   hexDigitByte ((w >>> 20) &&& 0xF), hexDigitByte ((w >>> 16) &&& 0xF),
   hexDigitByte ((w >>> 12) &&& 0xF), hexDigitByte ((w >>> 8) &&& 0xF),
   hexDigitByte ((w >>> 4) &&& 0xF), hexDigitByte (w &&& 0xF)]

def Kernel.dispatchSrv (k : Kernel) (pid : Nat) (msg : IpcMessage) :
    Nat × List Nat × Kernel :=
  if msg.commandId = 0x0001 then
    if msg.normalWords.length < 3 then (RESULT_INVALID_COMMAND, [], k)
    else
      let name := serviceNameFromWords (msg.normalWords.take 2)
      let maxSessions := msg.normalWords.getD 2 0
      let registry1 :=
        alistInsertBytes k.registry name { target := .srv, maxSessions := maxSessions }
      let k1 := { k with registry := registry1 }
      let (port, k2) := k1.registerServicePort pid name maxSessions
      (RESULT_OK, [port], k2)
  else if msg.commandId = 0x0005 then
    if msg.normalWords.length < 2 then (RESULT_INVALID_COMMAND, [], k)
    else
      let name := serviceNameFromWords (msg.normalWords.take 2)
      match k.connectToService pid name with
      | some (handle, k1) => (RESULT_OK, [handle], k1)
      | none => (RESULT_NOT_FOUND, [], k)
  else (RESULT_INVALID_COMMAND, [], k)

def Kernel.dispatchFs (k : Kernel) (pid : Nat) (msg : IpcMessage) :
    Nat × List Nat × Kernel :=
  if msg.commandId = 0x0001 then
    let archiveId := msg.normalWords.getD 0 0
    match k.vfs.openArchive archiveId with
    | none => (RESULT_NOT_FOUND, [], k)
    | some archiveObj =>
      let (archive, k1) := k.allocateHandle pid (.archive archiveObj)
      (RESULT_OK, [archive], k1)
  else if msg.commandId = 0x0002 then
    if msg.normalWords.length < 2 then (RESULT_INVALID_COMMAND, [], k)
    else
      let archiveHandle := msg.normalWords.getD 0 0
      match k.lookupObject pid archiveHandle with
      | some (.archive archiveObj) =>
        let translated := k.vfs.translatePath archiveObj.archive
          (slashHex8 (msg.normalWords.getD 1 0))
        match k.vfs.openFile archiveObj translated with
        | some fileObj =>
          let (file, k1) := k.allocateHandle pid (.file fileObj)
          (RESULT_OK, [file], k1)
        | none =>
          if archiveObj.archive = .romfs then (RESULT_NOT_FOUND, [], k)
          else
            let fallbackPath := slashHex8 (msg.normalWords.getD 1 0)
            match k.vfs.openFile archiveObj fallbackPath with
            | some fileObj =>
              let (file, k1) := k.allocateHandle pid (.file fileObj)
              (RESULT_OK, [file], k1)
            | none =>
              -- The source calls expect here; this arm is unreachable
              -- because open_file on a non-RomFs archive always succeeds.
              (RESULT_NOT_FOUND, [], k)
      | _ => (RESULT_INVALID_HANDLE, [], k)
  else if msg.commandId = 0x0003 then
    if msg.normalWords.length < 3 then (RESULT_INVALID_COMMAND, [], k)
    else
      let fileHandle := msg.normalWords.getD 0 0
      let offset := msg.normalWords.getD 1 0
      let size := msg.normalWords.getD 2 0
      match k.lookupObject pid fileHandle with
      | some (.file fileObj) =>
        match k.vfs.readFile fileObj offset size with
        | none => (RESULT_NOT_FOUND, [], k)
        | some data => (RESULT_OK, [data.length], k)
      | _ => (RESULT_INVALID_HANDLE, [], k)
  else (RESULT_INVALID_COMMAND, [], k)

def Kernel.dispatchApt (k : Kernel) (msg : IpcMessage) : Nat × List Nat × Kernel :=
  if msg.commandId = 0x0001 then (RESULT_OK, [k.appState], k)
  else if msg.commandId = 0x0002 then
    let k1 := { k with appState := msg.normalWords.getD 0 k.appState }
    (RESULT_OK, [k1.appState], k1)
  else (RESULT_INVALID_COMMAND, [], k)

def Kernel.dispatchGsp (k : Kernel) (msg : IpcMessage) : Nat × List Nat × Kernel :=
  if msg.commandId = 0x0001 then
    let color := msg.normalWords.getD 0 0xFF000000
    let k1 := { k with gpuHandoff :=
      k.gpuHandoff ++ [[picaPacketEncode 0x0200 1 false, color]] }
    (RESULT_OK, [], k1)
  else if msg.commandId = 0x0002 then
    if msg.normalWords.length < 3 then (RESULT_INVALID_COMMAND, [], k)
    else
      let w0 := msg.normalWords.getD 0 0
      let w1 := msg.normalWords.getD 1 0
      let w2 := msg.normalWords.getD 2 0
      let k1 := { k with gpuHandoff := k.gpuHandoff ++
        [[picaPacketEncode 0x0201 1 false,
          ((w1 <<< 16) % 2 ^ 32) ||| (w0 &&& 0xFFFF),
          picaPacketEncode 0x0202 1 false,
          w2]] }
      (RESULT_OK, [], k1)
  else (RESULT_INVALID_COMMAND, [], k)

def Kernel.dispatchHid (k : Kernel) (msg : IpcMessage) : Nat × List Nat × Kernel :=
  if msg.commandId = 0x0001 then
    ((RESULT_OK, [1], { k with hidState := HidInputState.default }))
  else if msg.commandId = 0x000A then
    (RESULT_OK, [k.hidState.buttons, k.hidState.touchX, k.hidState.touchY], k)
  else if msg.commandId = 0x000B then
    if msg.normalWords.length < 3 then (RESULT_INVALID_COMMAND, [], k)
    else
      let k1 := { k with hidState :=
        { buttons := msg.normalWords.getD 0 0,
          touchX := msg.normalWords.getD 1 0 % 2 ^ 16,
          touchY := msg.normalWords.getD 2 0 % 2 ^ 16 } }
      (RESULT_OK, [], k1)
  else (RESULT_INVALID_COMMAND, [], k)

def Kernel.dispatchRequest (k : Kernel) (pid : Nat) (req : IpcRequest) :
    Nat × List Nat × Kernel :=
  match k.lookupObject pid req.sessionHandle with
  | some (.session target) =>
    match target with
    | .srv => k.dispatchSrv pid req.message
    | .fs => k.dispatchFs pid req.message
    | .apt => k.dispatchApt req.message
    | .gspGpu => k.dispatchGsp req.message
    | .hidUser => k.dispatchHid req.message
  | _ => (RESULT_INVALID_HANDLE, [], k)

/-- The selection loop of pump_ipc_events: walk the process table in
iteration order and pop the front request of the first process whose
queue is non-empty. -/
def selectRequest (ps : List (Nat × ProcessState)) :
    Option (Nat × IpcRequest × List (Nat × ProcessState)) :=
  match ps with
  | [] => none
  | (pid, st) :: rest =>
    match st.pendingRequests with
    | req :: remaining =>
      some (pid, req, (pid, { st with pendingRequests := remaining }) :: rest)
    | [] =>
      match selectRequest rest with
      | none => none
      | some (p, r, rest1) => some (p, r, (pid, st) :: rest1)

/-- pump_ipc_events: up to budget iterations, each dispatching the
selected request, recording it as the last IPC dispatch and pushing
the response onto the owning process's response queue. -/
def Kernel.pumpIpcEvents (k : Kernel) (budget : Nat) : Kernel :=
  match budget with
  | 0 => k
  | b + 1 =>
    match selectRequest k.processes with
    | none => k
    | some (pid, req, processes1) =>
      let cmdId := req.message.commandId
      let handleId := req.sessionHandle
      let k1 := { k with processes := processes1 }
      let (resultCode, words, k2) := k1.dispatchRequest pid req
      let k3 := { k2 with lastIpc := some (cmdId, handleId, resultCode) }
      let k4 := k3.updateProcess pid (fun st =>
        { st with lastResultCode := resultCode,
                  pendingResponses := st.pendingResponses ++
                    [{ resultCode := resultCode, words := words }] })
      k4.pumpIpcEvents b

def Kernel.queueIpcCommand (k : Kernel) (pid sessionHandle : Nat)
    (words : List Nat) : Kernel :=
  let k1 := k.ensureProcess pid
  let message :=
    match IpcMessage.parse words with
    | some m => m
    | none => { commandId := 0, normalWords := [], descriptors := [] }
  k1.updateProcess pid (fun st =>
    { st with pendingRequests := st.pendingRequests ++
        [{ sessionHandle := sessionHandle, message := message }] })

def Kernel.popIpcResponse (k : Kernel) (pid : Nat) : Option IpcResponse × Kernel :=
  match alistGet k.processes pid with
  | none => (none, k)
  | some st =>
    match st.pendingResponses with
    | [] => (none, k)
    | r :: rest =>
      (some r, k.updateProcess pid (fun s => { s with pendingResponses := rest }))

/-- Modelled from the spec: the orchestrator drains the kernel's
pending schedule events when it post-processes a software
interrupt. -/
def Kernel.takePendingScheduleEvents (k : Kernel) :
    List KernelScheduleEvent × Kernel :=
  (k.pendingScheduleEvents, { k with pendingScheduleEvents := [] })

/-- Modelled from the spec: scheduler delivery of a service wake clears
the process's blocked-on-IPC flag. -/
def Kernel.onSchedulerWake (k : Kernel) (pid : Nat) : Kernel :=
  k.updateProcess pid (fun st => { st with blockedOnIpc := false })

/-- dispatch_syscall from kernel.rs: ensure_process, then match on the
immediate; the 0x32 arm unconditionally pumps one IPC step. -/
def Kernel.dispatchSyscall (k : Kernel) (pid imm24 : Nat) (args : List Nat) :
    ServiceCall × Kernel :=
  let k0 := k.ensureProcess pid
  if imm24 = 0x00 then (.yield, k0)
  else if imm24 = 0x01 then (.getTick, k0)
  else if imm24 = 0x23 then
    (.createEvent, (k0.createEvent pid svcEventName).2)
  else if imm24 = 0x27 then
    match args.head? with
    | some handle =>
      (.duplicateHandle,
        match k0.duplicateHandle pid handle with
        | some (_, k1) => k1
        | none => k0)
    | none => (.duplicateHandle, k0)
  else if imm24 = 0x29 then
    match args.head? with
    | some handle => (.closeHandle, (k0.closeHandle pid handle).2)
    | none => (.closeHandle, k0)
  else if imm24 = 0x32 then
    (.sendSyncRequest, k0.pumpIpcEvents 1)
  else (.unknown imm24, k0)

def Kernel.handleSwi (k : Kernel) (imm24 : Nat) : Kernel :=
  let (call, k1) := k.dispatchSyscall 1 imm24 []
  { k1 with
    svcLog := k1.svcLog ++ [{ call := call, argument := imm24 }],
    lastServiceImm24 := some imm24 }

/-! ## Concrete kernel states used to examine the IPC pump -/

/-- A kernel skeleton without processes (the fields of Kernel.new
before any process or port exists). -/
def pumpStateBase : Kernel :=
  { svcLog := [], ticks := 0, nextHandle := 0x20, processes := [],
    servicePorts := [], registry := registryBootstrap, appState := 1,
    gpuHandoff := [], hidState := HidInputState.default,
    vfs := { romfs := none }, lastIpc := none, lastServiceImm24 := none,
    pendingScheduleEvents := [] }

/-- A process whose queue holds one request for the given command id on
an (unbound) session handle. -/
def procWithRequest (cmd handle : Nat) : ProcessState :=
  { ProcessState.default with pendingRequests :=
      [{ sessionHandle := handle,
         message := { commandId := cmd, normalWords := [], descriptors := [] } }] }

/-- Two processes, table iterated in the order pid 2 then pid 3. -/
def pumpStateA : Kernel :=
  { pumpStateBase with processes :=
      [(2, procWithRequest 7 0x99), (3, procWithRequest 8 0x98)] }

/-- The same two processes, table iterated in the order pid 3 then
pid 2 (an equal map with a different iteration order). -/
def pumpStateB : Kernel :=
  { pumpStateBase with processes :=
      [(3, procWithRequest 8 0x98), (2, procWithRequest 7 0x99)] }

/-! ## Helper lemmas on bit manipulation -/

theorem lor_shiftRight (x y n : Nat) : (x ||| y) >>> n = (x >>> n) ||| (y >>> n) := by
  apply Nat.eq_of_testBit_eq
  intro i
  simp [Nat.testBit_shiftRight, Nat.testBit_lor]

theorem lor_land (x y m : Nat) : (x ||| y) &&& m = (x &&& m) ||| (y &&& m) := by
  apply Nat.eq_of_testBit_eq
  intro i
  simp [Nat.testBit_land, Nat.testBit_lor, Bool.and_or_distrib_right]

theorem land_mask (x n : Nat) : x &&& (2 ^ n - 1) = x % 2 ^ n := by
  have := Nat.and_pow_two_sub_one_eq_mod x n
  omega

/-- Disjoint bit ranges: a value shifted past k bits or-ed with a value
below 2^k is their sum. -/
theorem mul_pow_lor (a b k : Nat) (hb : b < 2 ^ k) :
    (a * 2 ^ k) ||| b = a * 2 ^ k + b := by
  have hpow : 0 < 2 ^ k := Nat.pos_pow_of_pos k (by omega)
  have hdiv : ((a * 2 ^ k) ||| b) / 2 ^ k = a := by
    have h := lor_shiftRight (a * 2 ^ k) b k
    rw [Nat.shiftRight_eq_div_pow, Nat.shiftRight_eq_div_pow,
      Nat.shiftRight_eq_div_pow, Nat.mul_div_cancel _ hpow,
      Nat.div_eq_of_lt hb] at h
    simpa using h
  have hmod : ((a * 2 ^ k) ||| b) % 2 ^ k = b := by
    have h := lor_land (a * 2 ^ k) b (2 ^ k - 1)
    rw [land_mask, land_mask, land_mask, Nat.mul_mod_left,
      Nat.mod_eq_of_lt hb] at h
    simpa using h
  have h := Nat.div_add_mod ((a * 2 ^ k) ||| b) (2 ^ k)
  rw [hdiv, hmod, Nat.mul_comm] at h
  omega

/-! ## C1: exception entry -/

/-- C1: evaluation of take_exception at a concrete failing input.  A
CPU in user mode with the C flag set takes a software interrupt: the
vector, return address, banked mode switch, interrupt-disable bit and
T-bit all behave as the claim states, but the SPSR of the target mode
(SVC) is left at its reset value instead of receiving the old CPSR,
because the source saves the CPSR through the SPSR of the old mode
(user, which has none) before switching modes.  The claim (and the
spec's SPSR_mode := CPSR rule, which the source's own
restore_cpsr_from_spsr depends on) is violated. -/
theorem take_exception_spsr_old_mode_bug :
    let c0 : Arm11Cpu := { Arm11Cpu.new with cpsr := FLAG_C ||| MODE_USR }
    let c1 := c0.takeException .softwareInterrupt 0x100 0xEF000000 true
    c0.cpsr = 0x20000010 ∧
    c1.spsr_svc = MODE_USR ∧
    c1.spsr_svc ≠ c0.cpsr ∧
    c1.mode = MODE_SVC ∧
    c1.regs.getD LR_INDEX 0 = 0x104 ∧
    c1.regs.getD PC_INDEX 0 = VECTOR_SWI ∧
    c1.regs.getD SP_INDEX 0 = c0.bankSvcSp ∧
    c1.cpsr &&& FLAG_I = FLAG_I ∧
    c1.cpsr &&& FLAG_T = 0 := by decide

/-! ## C4: operand-2 shifter zero-shift semantics -/

/-- C4 counterexample: ROR #0 does not act as RRX through the carry.
With value 0 and the C flag set, RRX semantics would produce
(2^31, carry-out false) — the old C flag entering bit 31 — but
shift_value performs a plain one-bit rotate and returns (0, false). -/
theorem ror_zero_not_rrx_through_carry :
    ({ Arm11Cpu.new with cpsr := FLAG_C } : Arm11Cpu).shiftValue 0 0 0b11 =
      (0, false) ∧
    ¬ ({ Arm11Cpu.new with cpsr := FLAG_C } : Arm11Cpu).shiftValue 0 0 0b11 =
      (2 ^ 31, false) := by decide

/-- C4 (amended): zero-shift semantics of the operand-2 shifter.
LSL #0 returns the value with carry-out the current C flag; LSR #0 and
ASR #0 act as shifts by 32 (all-zero resp. sign-filled result,
carry-out bit 31 of the value); ROR #0 rotates the value right by one
bit, so bit 0 of the value enters bit 31 of the result and is also the
carry-out — the old carry flag does not enter the result. -/
theorem shift_value_zero_shift_semantics (c : Arm11Cpu) (value : Nat)
    (hv : value < 2 ^ 32) :
    c.shiftValue value 0 0b00 = (value, decide (c.cpsr &&& FLAG_C ≠ 0)) ∧
    c.shiftValue value 0 0b01 = (0, decide (value / 2 ^ 31 = 1)) ∧
    c.shiftValue value 0 0b10 =
      ((if value / 2 ^ 31 = 1 then 2 ^ 32 - 1 else 0), decide (value / 2 ^ 31 = 1)) ∧
    c.shiftValue value 0 0b11 =
      (value / 2 + value % 2 * 2 ^ 31, decide (value % 2 = 1)) := by
  have h1 : (value >>> 31) &&& 1 = value / 2 ^ 31 := by
    rw [Nat.shiftRight_eq_div_pow, Nat.and_one_is_mod]
    omega
  have hN : FLAG_N = 2 ^ 31 := by norm_num [FLAG_N, Nat.shiftLeft_eq]
  have hsignP : (value &&& FLAG_N ≠ 0) ↔ value / 2 ^ 31 = 1 := by
    rw [hN, Nat.and_two_pow, Nat.testBit_to_div_mod]
    simp only [ne_eq, Nat.mul_eq_zero, Bool.toNat_eq_zero, decide_eq_false_iff_not,
      Decidable.not_not]
    constructor
    · intro h
      omega
    · intro h
      omega
  refine ⟨rfl, ?_, ?_, ?_⟩
  · simp only [Arm11Cpu.shiftValue]
    norm_num [h1]
  · simp only [Arm11Cpu.shiftValue]
    norm_num [h1, hsignP]
  · simp only [Arm11Cpu.shiftValue]
    norm_num
    have e1 : rotateRight32 value 1 = (value >>> 1) ||| ((value <<< 31) % 2 ^ 32) := rfl
    have hrot : rotateRight32 value 1 = value / 2 + value % 2 * 2 ^ 31 := by
      rw [e1, Nat.shiftLeft_eq, Nat.shiftRight_eq_div_pow, pow_one]
      have hm : value * 2 ^ 31 % 2 ^ 32 = value % 2 * 2 ^ 31 := by omega
      rw [hm, Nat.lor_comm, mul_pow_lor (value % 2) (value / 2) 31 (by omega)]
      omega
    rw [hrot]
    have hc : ((value / 2 + value % 2 * 2 ^ 31) &&& FLAG_N = 0) ↔ ¬(value % 2 = 1) := by
      rw [hN, Nat.and_two_pow, Nat.testBit_to_div_mod]
      simp only [Nat.mul_eq_zero, Bool.toNat_eq_zero, decide_eq_false_iff_not]
      constructor
      · intro h
        omega
      · intro h
        omega
    refine ⟨by omega, ?_⟩
    rw [decide_eq_decide.mpr hc, decide_not]

/-- C4 witness: the amended theorem applied at value 0x80000001. -/
theorem shift_value_zero_shift_semantics_witness :
    (0x80000001 : Nat) < 2 ^ 32 ∧
    Arm11Cpu.new.shiftValue 0x80000001 0 0b11 = (0xC0000000, true) := by
  have h := (shift_value_zero_shift_semantics Arm11Cpu.new 0x80000001 (by norm_num)).2.2.2
  norm_num at h
  exact ⟨by norm_num, h⟩

/-! ## C3: TLB invalidation on MMU register writes -/

/-- C3 counterexample: a control-register write that leaves the
MMU-enable, I-cache and D-cache bits unchanged does not clear the TLB.
The MMU is configured (TTBR0 0x4000, DACR client, control 1), one
translation populates the TLB, and re-writing control with the same
value 1 leaves the cached entry in place. -/
theorem write_control_unchanged_bits_keeps_tlb :
    let mem : Nat → Option Nat := fun a => if a = 0x4004 then some 0x08000C02 else none
    let m0 := ((Mmu.new.writeTtbr0 0x4000).writeDacr 0b01).writeControl 1
    let m1 := (m0.translate mem 0x00100000 .read false).2
    let m2 := m1.writeControl 1
    m1.tlb ≠ [] ∧ m2.control = 1 ∧ m2.tlb = m1.tlb ∧ m2.tlb ≠ [] := by decide

/-- C3 (amended): every write to TTBR0 and every write to DACR leaves
the TLB empty; a write to the control register leaves the TLB empty
when it changes the MMU-enable, I-cache or D-cache bit, while a
control write that changes none of the three keeps the TLB as it
was. -/
theorem tlb_flush_on_mmu_register_writes (m : Mmu) (v : Nat) :
    (m.writeTtbr0 v).tlb = [] ∧
    (m.writeDacr v).tlb = [] ∧
    ((m.mmuEnabled ≠ decide (v &&& 1 ≠ 0) ∨
      m.icacheEnabled ≠ decide (v &&& (1 <<< 12) ≠ 0) ∨
      m.dcacheEnabled ≠ decide (v &&& (1 <<< 2) ≠ 0)) →
      (m.writeControl v).tlb = []) ∧
    ((m.mmuEnabled = decide (v &&& 1 ≠ 0) ∧
      m.icacheEnabled = decide (v &&& (1 <<< 12) ≠ 0) ∧
      m.dcacheEnabled = decide (v &&& (1 <<< 2) ≠ 0)) →
      (m.writeControl v).tlb = m.tlb) := by
  refine ⟨rfl, rfl, ?_, ?_⟩
  · intro h
    unfold Mmu.writeControl
    simp only [Mmu.invalidateTlb]
    split
    · rfl
    · rename_i hcond
      simp [Mmu.mmuEnabled] at h hcond
      tauto
  · intro h
    unfold Mmu.writeControl
    simp only [Mmu.invalidateTlb]
    split
    · rename_i hcond
      simp [Mmu.mmuEnabled] at h hcond
      simp_all
    · rfl

/-- C3 witness: the amended theorem applied at the reset MMU with
control value 1 (which turns the MMU-enable bit on, so the TLB is
cleared), and at TTBR0 value 0x4000. -/
theorem tlb_flush_on_mmu_register_writes_witness :
    (Mmu.new.writeTtbr0 0x4000).tlb = [] ∧ (Mmu.new.writeControl 1).tlb = [] :=
  ⟨(tlb_flush_on_mmu_register_writes Mmu.new 0x4000).1,
   (tlb_flush_on_mmu_register_writes Mmu.new 1).2.2.1 (by decide)⟩

/-! ## C9: manager-mode domains skip permission checks -/

/-- C9: when the MMU is enabled and the DACR mode for the section's
domain is 0b11 (manager), translate succeeds with
pa_section or-ed with the low 20 virtual bits, for every access kind
and privilege level — the AP/APX/XN checks are skipped — and when the
mode is 0b01 (client) the XN bit does make an execute access fault.
The section entry may come from a TLB hit or from a table walk whose
descriptor parses to it. -/
theorem manager_domain_translation (m : Mmu) (mem : Nat → Option Nat)
    (va : Nat) (access : MemoryAccessKind) (privileged : Bool)
    (entry : TlbEntry) (desc : Nat)
    (hen : m.mmuEnabled = true)
    (hacq : tlbGet m.tlb (va &&& SECTION_VA_MASK) = some entry ∨
      (tlbGet m.tlb (va &&& SECTION_VA_MASK) = none ∧
       mem ((m.ttbr0 + ((va >>> 20) * 4) % 2 ^ 32) % 2 ^ 32) = some desc ∧
       desc &&& SECTION_DESCRIPTOR_MASK = SECTION_DESCRIPTOR_VALUE ∧
       entry = { paSection := desc &&& SECTION_BASE_MASK,
                 domain := (desc >>> 5) &&& 0xF,
                 ap := (desc >>> 10) &&& 0x3,
                 apx := decide ((desc >>> 15) &&& 1 ≠ 0),
                 executeNever := decide ((desc >>> 4) &&& 1 ≠ 0) })) :
    (((m.dacr >>> (entry.domain * 2)) &&& 0b11 = 0b11) →
      (m.translate mem va access privileged).1 =
        .ok (entry.paSection ||| (va &&& SECTION_OFFSET_MASK))) ∧
    (((m.dacr >>> (entry.domain * 2)) &&& 0b11 = 0b01 ∧
      entry.executeNever = true ∧ access = .execute) →
      (m.translate mem va access privileged).1 =
        .error (.mmuPermissionFault 0 va none access)) := by
  have hcheckMgr : (m.dacr >>> (entry.domain * 2)) &&& 0b11 = 0b11 →
      m.checkDomainAndPermissions va entry access privileged = .ok () := by
    intro hmgr
    unfold Mmu.checkDomainAndPermissions
    rw [hmgr]
    norm_num
  have hcheckXn : ((m.dacr >>> (entry.domain * 2)) &&& 0b11 = 0b01 ∧
      entry.executeNever = true ∧ access = .execute) →
      m.checkDomainAndPermissions va entry access privileged =
        .error (.mmuPermissionFault 0 va none access) := by
    rintro ⟨hdom, hxn, haccess⟩
    unfold Mmu.checkDomainAndPermissions
    rw [hdom, hxn, haccess]
    norm_num
  have hrec : ∀ t : List (Nat × TlbEntry),
      ({ m with tlb := t } : Mmu).checkDomainAndPermissions va entry access privileged =
        m.checkDomainAndPermissions va entry access privileged := fun _ => rfl
  constructor
  · intro hmgr
    unfold Mmu.translate
    rw [hen]
    rcases hacq with hhit | ⟨hmiss, hmem, hdesc, hentry⟩
    · simp only [hhit, hcheckMgr hmgr]
      norm_num
    · simp only [hmiss, hmem, hdesc, reduceIte]
      rw [← hentry]
      simp [hrec, hcheckMgr hmgr]
  · intro hxn
    unfold Mmu.translate
    rw [hen]
    rcases hacq with hhit | ⟨hmiss, hmem, hdesc, hentry⟩
    · simp only [hhit, hcheckXn hxn]
      norm_num
    · simp only [hmiss, hmem, hdesc, reduceIte]
      rw [← hentry]
      simp [hrec, hcheckXn hxn]

/-- C9 witness: a TLB-resident execute-never section in a manager
domain, fetched for execution from user mode, still translates. -/
theorem manager_domain_translation_witness :
    (({ control := 1, ttbr0 := 0, dacr := 0b11, icacheEnabled := false,
        dcacheEnabled := false,
        tlb := [(0x00100000,
          { paSection := 0x08000000, domain := 0, ap := 0,
            apx := false, executeNever := true })] } : Mmu).translate
      (fun _ => none) 0x00100123 .execute false).1 = .ok 0x08000123 := by
  have h := (manager_domain_translation
    ({ control := 1, ttbr0 := 0, dacr := 0b11, icacheEnabled := false,
        dcacheEnabled := false,
        tlb := [(0x00100000,
          { paSection := 0x08000000, domain := 0, ap := 0,
            apx := false, executeNever := true })] } : Mmu)
    (fun _ => none) 0x00100123 .execute false
    { paSection := 0x08000000, domain := 0, ap := 0,
      apx := false, executeNever := true } 0
    (by decide) (Or.inl (by decide))).1 (by decide)
  simpa using h

/-! ## C10: checked 32-bit writes are not atomic on error -/

/-- C10: a checked 32-bit bus write is not atomic on error.  At address
0x1F0FFFFE — the last two bytes of VRAM, whose successor address
0x1F100000 is unmapped — write_u32_checked reports MemoryOutOfBounds,
yet the two mapped writable bytes have already received the low bytes
of the value (the fresh memory held zero there before). -/
theorem write_u32_checked_not_atomic_on_error :
    ∃ a v : Nat, v < 2 ^ 32 ∧
      (Memory.new.writeU32Checked a v).1 = .error (.memoryOutOfBounds 0x1F100000) ∧
      Memory.new.readU8 a = 0 ∧
      Memory.new.readU8 (a + 1) = 0 ∧
      (Memory.new.writeU32Checked a v).2.readU8 a = v % 2 ^ 8 ∧
      (Memory.new.writeU32Checked a v).2.readU8 (a + 1) = v / 2 ^ 8 % 2 ^ 8 ∧
      v % 2 ^ 8 ≠ 0 :=
  ⟨0x1F0FFFFE, 0xAABBCCDD, by norm_num, rfl, rfl, rfl, rfl, rfl, by norm_num⟩

/-! ## C2: scheduler drain -/

/-- The drain loop partitions the pending list into the due entries and
the rest, keeping relative order on both sides. -/
theorem drainSplit_eq (l : List ScheduledEvent) (now : Nat) :
    drainSplit l now =
      (l.filter (fun e => decide (e.atCycle ≤ now)),
       l.filter (fun e => !decide (e.atCycle ≤ now))) := by
  induction l with
  | nil => rfl
  | cons e rest ih =>
    simp only [drainSplit, ih]
    by_cases h : e.atCycle ≤ now <;> simp [h, List.filter]

/-- C2: drain_due_events removes and returns exactly the pending events
whose fire-at cycle is at most the current cycle counter, as a list
sorted by the key (fire-at, device-event priority, insertion order)
with priorities timer 0, v-blank 1, DMA 2, service-wake 3; every later
event stays pending, the cycle counter is untouched, and no returned
event fires later than the current cycle. -/
theorem drain_due_events_spec (s : Scheduler) :
    (∃ fired : List ScheduledEvent,
       fired.Perm (s.pending.filter (fun e => decide (e.atCycle ≤ s.cycles))) ∧
       List.Sorted eventKeyLe fired ∧
       s.drainDueEvents.1 = fired.map (fun e => e.event) ∧
       ∀ e ∈ fired, e.atCycle ≤ s.cycles) ∧
    s.drainDueEvents.2.pending =
      s.pending.filter (fun e => !decide (e.atCycle ≤ s.cycles)) ∧
    s.drainDueEvents.2.cycles = s.cycles ∧
    s.drainDueEvents.2.nextOrder = s.nextOrder ∧
    ScheduledDeviceEvent.priority .timerExpiry = 0 ∧
    ScheduledDeviceEvent.priority .vblank = 1 ∧
    (∀ channel, ScheduledDeviceEvent.priority (.dmaCompletion channel) = 2) ∧
    (∀ pid, ScheduledDeviceEvent.priority (.serviceWake pid) = 3) := by
  have hunfold : s.drainDueEvents =
      (((s.pending.filter (fun e => decide (e.atCycle ≤ s.cycles))).insertionSort
          eventKeyLe).map (fun e => e.event),
       { s with pending := s.pending.filter (fun e => !decide (e.atCycle ≤ s.cycles)) }) := by
    unfold Scheduler.drainDueEvents
    rw [drainSplit_eq]
  refine ⟨⟨(s.pending.filter (fun e => decide (e.atCycle ≤ s.cycles))).insertionSort
      eventKeyLe, ?_, ?_, ?_, ?_⟩, ?_, ?_, ?_, rfl, rfl, fun _ => rfl, fun _ => rfl⟩
  · exact List.perm_insertionSort _ _
  · exact List.sorted_insertionSort _ _
  · rw [hunfold]
  · intro e he
    have hmem := (List.perm_insertionSort eventKeyLe _).mem_iff.mp he
    have := List.of_mem_filter hmem
    simpa using this
  · rw [hunfold]
  · rw [hunfold]
  · rw [hunfold]

/-! ## C8: timing phase accumulators -/

/-- The cumulative audio sample count over a tick sequence is the floor
of the scaled cycle total, offset by the starting phase. -/
theorem runTicks_audio (t : TimingModel) (deltas : List Nat)
    (h : ∀ d ∈ deltas, d < 2 ^ 32) (hphase : t.audioPhase < CPU_HZ) :
    (t.runTicks deltas).2 = (t.audioPhase + deltas.sum * AUDIO_HZ) / CPU_HZ := by
  induction deltas generalizing t with
  | nil =>
    simp only [TimingModel.runTicks, List.sum_nil, Nat.zero_mul, Nat.add_zero]
    rw [Nat.div_eq_of_lt hphase]
  | cons d rest ih =>
    have hd : d < 2 ^ 32 := h d (by simp)
    have hrest : ∀ x ∈ rest, x < 2 ^ 32 := fun x hx => h x (by simp [hx])
    have hm : satMul64 d AUDIO_HZ = d * AUDIO_HZ := by
      unfold satMul64 AUDIO_HZ
      exact Nat.min_eq_left (by omega)
    have hs : satAdd64 t.audioPhase (d * AUDIO_HZ) = t.audioPhase + d * AUDIO_HZ := by
      unfold satAdd64
      unfold CPU_HZ at hphase
      unfold AUDIO_HZ
      exact Nat.min_eq_left (by omega)
    have e1 : (t.tick d).1.audioSamples = (t.audioPhase + d * AUDIO_HZ) / CPU_HZ := by
      show (satAdd64 t.audioPhase (satMul64 d AUDIO_HZ)) / CPU_HZ = _
      rw [hm, hs]
    have e2 : (t.tick d).2.audioPhase = (t.audioPhase + d * AUDIO_HZ) % CPU_HZ := by
      show (satAdd64 t.audioPhase (satMul64 d AUDIO_HZ)) % CPU_HZ = _
      rw [hm, hs]
    have hphase1 : (t.tick d).2.audioPhase < CPU_HZ := by
      rw [e2]
      exact Nat.mod_lt _ (by norm_num [CPU_HZ])
    have hstep := ih (t.tick d).2 hrest hphase1
    simp only [TimingModel.runTicks]
    rw [hstep, e1, e2, List.sum_cons]
    unfold CPU_HZ AUDIO_HZ
    unfold CPU_HZ at hphase
    omega

/-- C8: after every tick both phase accumulators are below CPU_HZ, and
over any tick sequence from the reset state the cumulative audio
sample count equals the floor of the cycle total times AUDIO_HZ over
CPU_HZ. -/
theorem timing_phase_and_sample_counts :
    (∀ (t : TimingModel) (delta : Nat),
       (t.tick delta).2.audioPhase < CPU_HZ ∧ (t.tick delta).2.videoPhase < CPU_HZ) ∧
    (∀ deltas : List Nat, (∀ d ∈ deltas, d < 2 ^ 32) →
       (TimingModel.new.runTicks deltas).2 = deltas.sum * AUDIO_HZ / CPU_HZ) := by
  constructor
  · intro t delta
    constructor
    · show (satAdd64 t.audioPhase (satMul64 delta AUDIO_HZ)) % CPU_HZ < CPU_HZ
      exact Nat.mod_lt _ (by norm_num [CPU_HZ])
    · show (satAdd64 t.videoPhase (satMul64 delta VIDEO_HZ)) % CPU_HZ < CPU_HZ
      exact Nat.mod_lt _ (by norm_num [CPU_HZ])
  · intro deltas h
    have hrun := runTicks_audio TimingModel.new deltas h (by norm_num [TimingModel.new, CPU_HZ])
    simpa [TimingModel.new] using hrun

/-- C8 witness: the theorem applied to two concrete ticks and one
concrete phase bound. -/
theorem timing_phase_and_sample_counts_witness :
    (TimingModel.new.runTicks [5000000, 6000000]).2 = 11000000 * AUDIO_HZ / CPU_HZ ∧
    (TimingModel.new.tick 123).2.audioPhase < CPU_HZ := by
  constructor
  · have h := timing_phase_and_sample_counts.2 [5000000, 6000000] (by decide)
    simpa using h
  · exact (timing_phase_and_sample_counts.1 TimingModel.new 123).1


/-! ## C5: IPC message round trip -/

theorem copy_tag_val (h : Nat) (hh : h < 2 ^ 28) :
    0x80000000 ||| (h &&& 0x0FFFFFFF) = 8 * 2 ^ 28 + h := by
  rw [show (0x0FFFFFFF : Nat) = 2 ^ 28 - 1 from by norm_num, land_mask,
    Nat.mod_eq_of_lt hh, show (0x80000000 : Nat) = 8 * 2 ^ 28 from by norm_num,
    mul_pow_lor 8 h 28 hh]

theorem move_tag_val (h : Nat) (hh : h < 2 ^ 28) :
    0x90000000 ||| (h &&& 0x0FFFFFFF) = 9 * 2 ^ 28 + h := by
  rw [show (0x0FFFFFFF : Nat) = 2 ^ 28 - 1 from by norm_num, land_mask,
    Nat.mod_eq_of_lt hh, show (0x90000000 : Nat) = 9 * 2 ^ 28 from by norm_num,
    mul_pow_lor 9 h 28 hh]

theorem static_tag_val (i s : Nat) (hi : i < 16) (hs : s < 2 ^ 24) :
    0xA0000000 ||| (((i &&& 0xF) <<< 24) % 2 ^ 32) ||| (s &&& 0x00FFFFFF) =
      10 * 2 ^ 28 + i * 2 ^ 24 + s := by
  rw [show (0xF : Nat) = 2 ^ 4 - 1 from by norm_num, land_mask,
    Nat.mod_eq_of_lt (show i < 2 ^ 4 from hi), Nat.shiftLeft_eq,
    Nat.mod_eq_of_lt (show i * 2 ^ 24 < 2 ^ 32 by omega),
    show (0x00FFFFFF : Nat) = 2 ^ 24 - 1 from by norm_num, land_mask,
    Nat.mod_eq_of_lt hs,
    show (0xA0000000 : Nat) = 10 * 2 ^ 28 from by norm_num,
    mul_pow_lor 10 (i * 2 ^ 24) 28 (by omega),
    show 10 * 2 ^ 28 + i * 2 ^ 24 = (160 + i) * 2 ^ 24 from by ring,
    mul_pow_lor (160 + i) s 24 hs]

theorem kind_extract (a r : Nat) (ha : a < 16) (hr : r < 2 ^ 28) :
    ((a * 2 ^ 28 + r) >>> 28) &&& 0xF = a := by
  rw [Nat.shiftRight_eq_div_pow, show (0xF : Nat) = 2 ^ 4 - 1 from by norm_num,
    land_mask]
  omega

theorem handle_extract (a h : Nat) (hh : h < 2 ^ 28) :
    (a * 2 ^ 28 + h) &&& 0x0FFFFFFF = h := by
  rw [show (0x0FFFFFFF : Nat) = 2 ^ 28 - 1 from by norm_num, land_mask]
  omega

theorem static_index_extract (i s : Nat) (hi : i < 16) (hs : s < 2 ^ 24) :
    ((10 * 2 ^ 28 + i * 2 ^ 24 + s) >>> 24) &&& 0xF = i := by
  rw [Nat.shiftRight_eq_div_pow, show (0xF : Nat) = 2 ^ 4 - 1 from by norm_num,
    land_mask]
  omega

theorem static_size_extract (i s : Nat) (hs : s < 2 ^ 24) :
    (10 * 2 ^ 28 + i * 2 ^ 24 + s) &&& 0x00FFFFFF = s := by
  rw [show (0x00FFFFFF : Nat) = 2 ^ 24 - 1 from by norm_num, land_mask]
  omega


theorem header_encode_val (cid n t : Nat) (hcid : cid < 2 ^ 16) (hn : n ≤ 0x3FF)
    (ht : t ≤ 0x3F) :
    CommandHeader.encode { commandId := cid, normalWords := n, translateWords := t } =
      (cid ||| n * 2 ^ 16) ||| t * 2 ^ 26 := by
  unfold CommandHeader.encode
  rw [Nat.shiftLeft_eq, Nat.shiftLeft_eq, Nat.mod_eq_of_lt hcid,
    Nat.mod_eq_of_lt (show n < 2 ^ 16 by omega),
    Nat.mod_eq_of_lt (show t < 2 ^ 8 by omega),
    Nat.mod_eq_of_lt (show n * 2 ^ 16 < 2 ^ 32 by omega),
    Nat.mod_eq_of_lt (show t * 2 ^ 26 < 2 ^ 32 by omega)]

theorem header_roundtrip (cid n t : Nat) (hcid : cid < 2 ^ 16) (hn : n ≤ 0x3FF)
    (ht : t ≤ 0x3F) :
    CommandHeader.parse
        (CommandHeader.encode { commandId := cid, normalWords := n, translateWords := t }) =
      { commandId := cid, normalWords := n, translateWords := t } := by
  rw [header_encode_val cid n t hcid hn ht]
  unfold CommandHeader.parse
  have h1 : ((cid ||| n * 2 ^ 16) ||| t * 2 ^ 26) &&& 0xFFFF = cid := by
    rw [show (0xFFFF : Nat) = 2 ^ 16 - 1 from by norm_num, lor_land, lor_land,
      land_mask, land_mask, land_mask, Nat.mod_eq_of_lt hcid, Nat.mul_mod_left,
      show t * 2 ^ 26 % 2 ^ 16 = 0 by omega]
    simp
  have h2 : (((cid ||| n * 2 ^ 16) ||| t * 2 ^ 26) >>> 16) &&& 0x3FF = n := by
    rw [lor_shiftRight, lor_shiftRight, Nat.shiftRight_eq_div_pow,
      Nat.shiftRight_eq_div_pow, Nat.shiftRight_eq_div_pow,
      Nat.div_eq_of_lt hcid, Nat.mul_div_cancel n (show 0 < 2 ^ 16 by norm_num),
      show t * 2 ^ 26 / 2 ^ 16 = t * 2 ^ 10 by omega,
      show (0x3FF : Nat) = 2 ^ 10 - 1 from by norm_num, lor_land, lor_land,
      land_mask, land_mask, land_mask, Nat.mod_eq_of_lt (show n < 2 ^ 10 by omega),
      Nat.mul_mod_left]
    simp
  have h3 : (((cid ||| n * 2 ^ 16) ||| t * 2 ^ 26) >>> 26) &&& 0x3F = t := by
    rw [lor_shiftRight, lor_shiftRight, Nat.shiftRight_eq_div_pow,
      Nat.shiftRight_eq_div_pow, Nat.shiftRight_eq_div_pow,
      Nat.div_eq_of_lt (show cid < 2 ^ 26 by omega),
      show n * 2 ^ 16 / 2 ^ 26 = 0 by omega,
      Nat.mul_div_cancel t (show 0 < 2 ^ 26 by norm_num),
      show (0x3F : Nat) = 2 ^ 6 - 1 from by norm_num, lor_land, lor_land,
      land_mask, land_mask, Nat.mod_eq_of_lt (show t < 2 ^ 6 by omega)]
    simp
  rw [h1, h2, h3]


theorem encodeDescriptors_cons (d : IpcDescriptor) (tl : List IpcDescriptor) :
    encodeDescriptors (d :: tl) = encodeDescriptor d ++ encodeDescriptors tl := by
  simp [encodeDescriptors]

theorem translateWeight_cons (d : IpcDescriptor) (tl : List IpcDescriptor) :
    translateWeight (d :: tl) = d.weight + translateWeight tl := by
  simp [translateWeight]

theorem getElem_append_len (pre : List Nat) (x : Nat) (rest : List Nat) :
    (pre ++ x :: rest)[pre.length]? = some x := by
  rw [List.getElem?_append_right (le_refl _)]
  simp

theorem getElem_append_len_succ (pre : List Nat) (x y : Nat) (rest : List Nat) :
    (pre ++ x :: y :: rest)[pre.length + 1]? = some y := by
  rw [show pre ++ x :: y :: rest = (pre ++ [x]) ++ y :: rest from by simp,
    show pre.length + 1 = (pre ++ [x]).length from by simp, getElem_append_len]

set_option maxRecDepth 8000 in
theorem parseDescriptors_encode (ds : List IpcDescriptor) (pre : List Nat) (c : Nat)
    (hvalid : ∀ d ∈ ds, d.valid) :
    parseDescriptors (pre ++ encodeDescriptors ds) pre.length c
      (c + translateWeight ds) = some ds := by
  induction ds generalizing pre c with
  | nil =>
    rw [parseDescriptors.eq_def, dif_neg (by simp [translateWeight, encodeDescriptors])]
  | cons d tl ih =>
    have hdv := hvalid d (by simp)
    have htl : ∀ x ∈ tl, x.valid := fun x hx => hvalid x (by simp [hx])
    rw [translateWeight_cons, encodeDescriptors_cons]
    cases d with
    | copyHandle h =>
      have hh : h < 2 ^ 28 := hdv
      rw [show encodeDescriptor (IpcDescriptor.copyHandle h) = [8 * 2 ^ 28 + h] from by
        simp [encodeDescriptor, copy_tag_val h hh]]
      rw [parseDescriptors.eq_def,
        dif_pos (show c < c + (IpcDescriptor.weight (.copyHandle h) + translateWeight tl) by
          simp [IpcDescriptor.weight])]
      rw [List.singleton_append, getElem_append_len]
      simp only [kind_extract 8 h (by norm_num) hh, reduceIte,
        handle_extract 8 h hh]
      rw [show pre ++ (8 * 2 ^ 28 + h) :: encodeDescriptors tl =
            (pre ++ [8 * 2 ^ 28 + h]) ++ encodeDescriptors tl from by simp,
        show pre.length + 1 = (pre ++ [8 * 2 ^ 28 + h]).length from by simp,
        show c + (IpcDescriptor.weight (.copyHandle h) + translateWeight tl) =
            (c + 1) + translateWeight tl from by simp [IpcDescriptor.weight]; omega,
        ih (pre ++ [8 * 2 ^ 28 + h]) (c + 1) htl]
    | moveHandle h =>
      have hh : h < 2 ^ 28 := hdv
      rw [show encodeDescriptor (IpcDescriptor.moveHandle h) = [9 * 2 ^ 28 + h] from by
        simp [encodeDescriptor, move_tag_val h hh]]
      rw [parseDescriptors.eq_def,
        dif_pos (show c < c + (IpcDescriptor.weight (.moveHandle h) + translateWeight tl) by
          simp [IpcDescriptor.weight])]
      rw [List.singleton_append, getElem_append_len]
      simp only [kind_extract 9 h (by norm_num) hh, reduceIte,
        handle_extract 9 h hh]
      rw [show pre ++ (9 * 2 ^ 28 + h) :: encodeDescriptors tl =
            (pre ++ [9 * 2 ^ 28 + h]) ++ encodeDescriptors tl from by simp,
        show pre.length + 1 = (pre ++ [9 * 2 ^ 28 + h]).length from by simp,
        show c + (IpcDescriptor.weight (.moveHandle h) + translateWeight tl) =
            (c + 1) + translateWeight tl from by simp [IpcDescriptor.weight]; omega,
        ih (pre ++ [9 * 2 ^ 28 + h]) (c + 1) htl]
      norm_num
    | staticBuffer i a s =>
      obtain ⟨hi, ha, hs⟩ := hdv
      have hr : i * 2 ^ 24 + s < 2 ^ 28 := by omega
      rw [show encodeDescriptor (IpcDescriptor.staticBuffer i a s) =
            [10 * 2 ^ 28 + i * 2 ^ 24 + s, a] from by
        simp only [encodeDescriptor]
        rw [static_tag_val i s hi hs]]
      rw [parseDescriptors.eq_def,
        dif_pos (show c < c + (IpcDescriptor.weight (.staticBuffer i a s) + translateWeight tl) by
          simp [IpcDescriptor.weight])]
      rw [show ([10 * 2 ^ 28 + i * 2 ^ 24 + s, a] : List Nat) ++ encodeDescriptors tl =
            (10 * 2 ^ 28 + i * 2 ^ 24 + s) :: a :: encodeDescriptors tl from by simp]
      rw [getElem_append_len]
      have hkind : ((10 * 2 ^ 28 + i * 2 ^ 24 + s) >>> 28) &&& 0xF = 10 := by
        have := kind_extract 10 (i * 2 ^ 24 + s) (by norm_num) hr
        rw [← Nat.add_assoc] at this
        exact this
      simp only [hkind]
      rw [if_neg (show ¬(10 : Nat) = 8 from by norm_num),
        if_neg (show ¬(10 : Nat) = 9 from by norm_num),
        getElem_append_len_succ]
      rw [show pre ++ (10 * 2 ^ 28 + i * 2 ^ 24 + s) :: a :: encodeDescriptors tl =
            (pre ++ [10 * 2 ^ 28 + i * 2 ^ 24 + s, a]) ++ encodeDescriptors tl from by simp,
        show pre.length + 2 = (pre ++ [10 * 2 ^ 28 + i * 2 ^ 24 + s, a]).length from by simp,
        show c + (IpcDescriptor.weight (.staticBuffer i a s) + translateWeight tl) =
            (c + 2) + translateWeight tl from by simp [IpcDescriptor.weight]; omega,
        ih (pre ++ [10 * 2 ^ 28 + i * 2 ^ 24 + s, a]) (c + 2) htl]
      simp only [static_index_extract i s hi hs, static_size_extract i s hs]
      simp


theorem commandBuffer_parse_cons (first : Nat) (tail : List Nat) (cid0 n0 t0 : Nat)
    (h : CommandHeader.parse first = ⟨cid0, n0, t0⟩) :
    CommandBuffer.parse (first :: tail) =
      if tail.length < n0 then none
      else some ⟨⟨cid0, n0, t0⟩, tail.take n0⟩ := by
  show (if tail.length < (CommandHeader.parse first).normalWords then none
    else some ⟨CommandHeader.parse first,
      tail.take (CommandHeader.parse first).normalWords⟩ : Option CommandBuffer) = _
  rw [h]

theorem ipcParse_some (raw ws : List Nat) (cid0 n0 t0 : Nat)
    (h : CommandBuffer.parse raw = some ⟨⟨cid0, n0, t0⟩, ws⟩) :
    IpcMessage.parse raw =
      match parseDescriptors raw (1 + n0) 0 t0 with
      | none => none
      | some descriptors => some ⟨cid0, ws, descriptors⟩ := by
  unfold IpcMessage.parse
  rw [h]

set_option maxRecDepth 8000 in
/-- C5: every valid IPC message — normal-word count at most 0x3FF,
handle tokens below 2^28, static-buffer index below 16 and size below
2^24, total translate weight at most 0x3F — survives the encode/parse
round trip: parse (into_words m) = some m. -/
theorem ipc_roundtrip (m : IpcMessage) (hv : m.valid) :
    IpcMessage.parse m.intoWords = some m := by
  obtain ⟨cid, ns, ds⟩ := m
  obtain ⟨hcid, hlen, hdesc, hweight⟩ := hv
  have hparse_e : CommandHeader.parse
      (CommandHeader.encode ⟨cid, ns.length, translateWeight ds⟩) =
      (⟨cid, ns.length, translateWeight ds⟩ : CommandHeader) :=
    header_roundtrip cid ns.length (translateWeight ds) hcid hlen hweight
  have hwords : IpcMessage.intoWords ⟨cid, ns, ds⟩ =
      CommandHeader.encode ⟨cid, ns.length, translateWeight ds⟩ ::
        (ns ++ encodeDescriptors ds) := by
    unfold IpcMessage.intoWords
    rw [List.cons_append]
  have hbuf : CommandBuffer.parse
      (CommandHeader.encode ⟨cid, ns.length, translateWeight ds⟩ ::
        (ns ++ encodeDescriptors ds)) =
      some ⟨⟨cid, ns.length, translateWeight ds⟩, ns⟩ := by
    rw [commandBuffer_parse_cons _ _ _ _ _ hparse_e,
      if_neg (show ¬ (ns ++ encodeDescriptors ds).length < ns.length from by simp),
      List.take_left]
  have hdescs : parseDescriptors
      (CommandHeader.encode ⟨cid, ns.length, translateWeight ds⟩ ::
        (ns ++ encodeDescriptors ds))
      (ns.length + 1) 0 (translateWeight ds) = some ds := by
    have h0 := parseDescriptors_encode ds
      (CommandHeader.encode ⟨cid, ns.length, translateWeight ds⟩ :: ns) 0 hdesc
    simpa using h0
  rw [hwords, ipcParse_some _ _ _ _ _ hbuf, Nat.add_comm 1 ns.length, hdescs]

/-- C5 witness: the round trip applied to a concrete message carrying
two payload words and all three descriptor kinds. -/
theorem ipc_roundtrip_witness :
    (({ commandId := 0x22,
        normalWords := [0xDEADBEEF, 0xCAFEBABE],
        descriptors := [.copyHandle 0x44, .moveHandle 0x45,
          .staticBuffer 3 0x12340000 0x100] } : IpcMessage)).valid ∧
    IpcMessage.parse
      ({ commandId := 0x22,
         normalWords := [0xDEADBEEF, 0xCAFEBABE],
         descriptors := [.copyHandle 0x44, .moveHandle 0x45,
           .staticBuffer 3 0x12340000 0x100] } : IpcMessage).intoWords =
      some { commandId := 0x22,
             normalWords := [0xDEADBEEF, 0xCAFEBABE],
             descriptors := [.copyHandle 0x44, .moveHandle 0x45,
               .staticBuffer 3 0x12340000 0x100] } :=
  ⟨by constructor <;> simp [translateWeight, IpcDescriptor.weight, IpcDescriptor.valid],
   ipc_roundtrip _ (by constructor <;> simp [translateWeight, IpcDescriptor.weight, IpcDescriptor.valid])⟩


theorem alistGet_map_update (l : List (Nat × ProcessState)) (pid : Nat)
    (f : ProcessState → ProcessState) :
    alistGet (l.map (fun kv => if kv.1 = pid then (kv.1, f kv.2) else kv)) pid =
      (alistGet l pid).map f := by
  induction l with
  | nil => rfl
  | cons kv rest ih =>
    by_cases h : kv.1 = pid <;> simp [alistGet, List.find?, h] at ih ⊢ <;> simp [ih]

theorem alistGet_updateProcess (k : Kernel) (pid : Nat)
    (f : ProcessState → ProcessState) :
    alistGet (k.updateProcess pid f).processes pid = (alistGet k.processes pid).map f :=
  alistGet_map_update k.processes pid f

theorem ensureProcess_schedule (k : Kernel) (pid : Nat) :
    (k.ensureProcess pid).pendingScheduleEvents = k.pendingScheduleEvents := by
  unfold Kernel.ensureProcess
  split <;> rfl

theorem ensureProcess_lastIpc (k : Kernel) (pid : Nat) :
    (k.ensureProcess pid).lastIpc = k.lastIpc := by
  unfold Kernel.ensureProcess
  split <;> rfl

/-- C6: the code refutes the claim.  dispatch_syscall's 0x32 arm pumps
one IPC step unconditionally: for every kernel state, pid and argument
list it returns the send-sync-request classification together with
ensure_process followed by pump_ipc_events(1).  At the concrete failing
input (the empty base kernel, pid 5, whose ensured process has an empty
request queue) the caller is left in the default state - not blocked on
IPC - and no service-wake schedule event is emitted, where the claim
requires the process marked blocked and a 64-cycle wake event queued. -/
theorem send_sync_request_unconditional_pump :
    (∀ (k : Kernel) (pid : Nat) (args : List Nat),
        k.dispatchSyscall pid 0x32 args =
          (.sendSyncRequest, (k.ensureProcess pid).pumpIpcEvents 1)) ∧
    ProcessState.default.pendingRequests = [] ∧
    alistGet (pumpStateBase.dispatchSyscall 5 0x32 []).2.processes 5 =
      some ProcessState.default ∧
    ProcessState.default.blockedOnIpc = false ∧
    (pumpStateBase.dispatchSyscall 5 0x32 []).2.pendingScheduleEvents =
      pumpStateBase.pendingScheduleEvents := by
  refine ⟨?_, rfl, rfl, rfl, rfl⟩
  intro k pid args
  unfold Kernel.dispatchSyscall
  norm_num

/-- C7: the IPC pump is not determined by the kernel state viewed as a map:
two kernel states whose process tables hold exactly the same processes
(equal under lookup for every pid) and agree on every other field dispatch
different (command id, handle, result) triples on the first pump step,
because pump_ipc_events walks the table in iteration order; in the source
that table is a std HashMap whose iteration order is seed-dependent and not
the fixed process-id order the claim asserts. -/
theorem pump_ipc_order_depends_on_iteration :
    ({ pumpStateA with processes := [] } : Kernel) =
      { pumpStateB with processes := [] } ∧
    (∀ pid, alistGet pumpStateA.processes pid = alistGet pumpStateB.processes pid) ∧
    (pumpStateA.pumpIpcEvents 1).lastIpc = some (7, 0x99, RESULT_INVALID_HANDLE) ∧
    (pumpStateB.pumpIpcEvents 1).lastIpc = some (8, 0x98, RESULT_INVALID_HANDLE) ∧
    (pumpStateA.pumpIpcEvents 1).lastIpc ≠ (pumpStateB.pumpIpcEvents 1).lastIpc := by
  refine ⟨by decide, ?_, by decide, by decide, by decide⟩
  intro pid
  by_cases h2 : pid = 2
  · subst h2
    rfl
  · by_cases h3 : pid = 3
    · subst h3
      rfl
    · simp [pumpStateA, pumpStateB, alistGet, List.find?, Ne.symm h2, Ne.symm h3]

end ThreeDs
